import Mathlib

/-!
Verification of the Cadence reconciliation engine.

This file gives a shallow embedding, in Lean 4, of the reconciliation core of
the Cadence_AEC backend: value normalization and equality
(app/services/normalization.py), effective-value resolution and the resolved
view (app/api/routes/snapshots.py), temporal comparison
(app/api/routes/comparison.py), the import pipeline with change and conflict
detection (app/services/import_service.py), and the item-type registry
(app/core/type_config.py).  Machine strings are Lean strings, database rows
are Lean structures, SQL queries are list operations over the insertion-order
lists that the tests observe, and Python exceptions are modelled with
Option/Except.  Theorems about the embedded definitions settle the frozen
claims about the engine.
-/

namespace Cadence

/-! ### Python string primitives

Models of the Python `str` methods used by normalization.py, restricted to
the character set the engine manipulates (ASCII plus the unicode quote and
dash characters that the dimension regexes mention).
-/

/-- Characters treated as whitespace by Python `str.strip` and by the regex
class used in `normalize_whitespace` (ASCII fragment). -/
def isPyWs (c : Char) : Bool :=
  c = ' ' || c = '\t' || c = '\n' || c = '\x0d' || c = '\x0b' || c = '\x0c'

/-- `str.strip()` on a character list: drop whitespace from both ends. -/
def pyStripList (l : List Char) : List Char :=
  ((l.dropWhile isPyWs).reverse.dropWhile isPyWs).reverse

/-- `str.strip()`. -/
def pyStrip (s : String) : String := ⟨pyStripList s.data⟩

/-- Helper for `normalize_whitespace`: collapse each whitespace run to a
single space.  The boolean records whether the previous character was part
of a whitespace run that has already emitted its space. -/
def collapseWsAux : Bool → List Char → List Char
  | _, [] => []
  | inWs, c :: rest =>
    if isPyWs c then
      if inWs then collapseWsAux true rest
      else ' ' :: collapseWsAux true rest
    else c :: collapseWsAux false rest

/-- normalization.py `normalize_whitespace`: collapse whitespace runs and
strip (Python: a regex substitution of every whitespace run by one space,
applied to the stripped string). -/
def normalize_whitespace (s : String) : String :=
  ⟨collapseWsAux false (pyStripList s.data)⟩

/-- normalization.py `normalize_case`: lowercase (ASCII fragment of
`str.lower`). -/
def normalize_case (s : String) : String :=
  ⟨s.data.map Char.toLower⟩

/-- normalization.py `normalize_identifier`: whitespace then case
normalization. -/
def normalize_identifier (s : String) : String :=
  normalize_case (normalize_whitespace s)

/-! ### The Python `Decimal` value model

`decimal.Decimal` values are compared by numeric value in normalization.py,
so a parsed decimal is modelled by its exact rational value together with
the special values: the two infinities, quiet NaN and signaling NaN.
Equality (`==`) on quiet NaN is `False`; equality on signaling NaN raises
`InvalidOperation`.
-/

inductive PyDec where
  | num : ℚ → PyDec
  | inf : Bool → PyDec   -- `true` is the negative infinity
  | nan : PyDec
  | snan : PyDec
deriving DecidableEq, Repr

/-- Python `Decimal.__eq__`: `none` models a raised `InvalidOperation`
(signaling NaN on either side); quiet NaN compares unequal to everything,
itself included. -/
def pyDecEq : PyDec → PyDec → Option Bool
  | .snan, _ => none
  | _, .snan => none
  | .nan, _ => some false
  | _, .nan => some false
  | .num a, .num b => some (decide (a = b))
  | .num _, .inf _ => some false
  | .inf _, .num _ => some false
  | .inf a, .inf b => some (decide (a = b))

/-- Match a lowercase keyword case-insensitively at the front of a character
list, returning the remainder. -/
def matchCI (kw : String) (l : List Char) : Option (List Char) :=
  let n := kw.length
  if (l.take n).map Char.toLower = kw.data then some (l.drop n) else none

/-- Optional sign: returns (isNegative, rest). -/
def parseSign : List Char → Bool × List Char
  | '+' :: r => (false, r)
  | '-' :: r => (true, r)
  | l => (false, l)

/-- Split a character list into its leading run of ASCII digits and the
rest. -/
def takeDigits (l : List Char) : List Char × List Char :=
  (l.takeWhile Char.isDigit, l.dropWhile Char.isDigit)

/-- Numeric value of a digit run. -/
def digitsVal (ds : List Char) : ℕ :=
  ds.foldl (fun a c => a * 10 + (c.toNat - 48)) 0

/-- Exponent part of a Python decimal literal: empty, or an `e`/`E` with an
optionally signed digit run ending the string.  `mant` is the digits of the
integer-plus-fraction part read as a natural number and `fracLen` the number
of fraction digits. -/
def parseExp (neg : Bool) (mant : ℕ) (fracLen : ℕ) (r : List Char) : Option PyDec :=
  let mkVal : ℤ → PyDec := fun e =>
    let q : ℚ := (mant : ℚ) * (10 : ℚ) ^ (e - (fracLen : ℤ))
    .num (if neg then -q else q)
  match r with
  | [] => some (mkVal 0)
  | c :: r1 =>
    if c.toLower = 'e' then
      let (eneg, r2) := parseSign r1
      let (ed, r3) := takeDigits r2
      if ed = [] ∨ r3 ≠ [] then none
      else some (mkVal (if eneg then -(digitsVal ed : ℤ) else (digitsVal ed : ℤ)))
    else none

/-- Coefficient of a Python decimal literal: `digits [. digits]` or
`. digits`, followed by the optional exponent part. -/
def parseNumericValue (neg : Bool) (r : List Char) : Option PyDec :=
  let (ip, r1) := takeDigits r
  match r1 with
  | '.' :: r2 =>
    let (fp, r3) := takeDigits r2
    if ip = [] ∧ fp = [] then none
    else parseExp neg (digitsVal (ip ++ fp)) fp.length r3
  | _ =>
    if ip = [] then none
    else parseExp neg (digitsVal ip) 0 r1

/-- The Python decimal literal grammar, after whitespace stripping and
underscore removal: an optionally signed numeric value, infinity, NaN or
sNaN (case-insensitive; NaN admits diagnostic digits). -/
def pyDecParseCore (l : List Char) : Option PyDec :=
  let (neg, r) := parseSign l
  match matchCI "snan" r with
  | some rest => if rest.all Char.isDigit then some .snan else none
  | none =>
  match matchCI "nan" r with
  | some rest => if rest.all Char.isDigit then some .nan else none
  | none =>
  match matchCI "infinity" r with
  | some rest => if rest = [] then some (.inf neg) else none
  | none =>
  match matchCI "inf" r with
  | some rest => if rest = [] then some (.inf neg) else none
  | none => parseNumericValue neg r

/-- `decimal.Decimal(s)` as a parser: `none` models a raised
`InvalidOperation`.  The constructor strips surrounding whitespace and
removes underscores before applying the literal grammar (as the reference
implementation in _pydecimal.py does). -/
def pyDecParse (s : String) : Option PyDec :=
  pyDecParseCore ((pyStripList s.data).filter (fun c => c ≠ '_'))

/-! ### Dimension parsing (normalization.py)

Hand-compiled recognizers for the three anchored regular expressions
`_FEET_INCHES_PATTERN`, `_FEET_ONLY_PATTERN`, `_INCHES_ONLY_PATTERN`.
They accept exactly the languages of the regexes (the alternation and
optional-group backtracking is resolved statically in the comments below).
-/

/-- The single-quote class of the regexes: apostrophe and the unicode
left and right single quotation marks. -/
def isQuoteS (c : Char) : Bool :=
  c = Char.ofNat 39 || c = Char.ofNat 0x2018 || c = Char.ofNat 0x2019

/-- The double-quote class of the regexes: quotation mark and the unicode
left and right double quotation marks. -/
def isQuoteD (c : Char) : Bool :=
  c = Char.ofNat 34 || c = Char.ofNat 0x201c || c = Char.ofNat 0x201d

/-- The separator class between feet and inches: whitespace, hyphen-minus
and the unicode en dash. -/
def isFeetSep (c : Char) : Bool :=
  isPyWs c || c = '-' || c = Char.ofNat 0x2013

/-- The regex group `(\d+(?:\.\d+)?)` : a digit run with an optional
fraction; returns the exact value and the remaining input.  When a dot is
not followed by a digit the optional group backtracks and the dot is left
unconsumed. -/
def parseDecNum (l : List Char) : Option (ℚ × List Char) :=
  let (ip, r1) := takeDigits l
  if ip = [] then none
  else
    match r1 with
    | '.' :: r2 =>
      let (fp, r3) := takeDigits r2
      if fp = [] then some ((digitsVal ip : ℚ), r1)
      else some ((digitsVal ip : ℚ) + (digitsVal fp : ℚ) / (10 : ℚ) ^ fp.length, r3)
    | _ => some ((digitsVal ip : ℚ), r1)

/-- `_FEET_INCHES_PATTERN`: feet, a single quote, optional separators,
inches, an optional double quote.  Returns `feet * 12 + inches`. -/
def feetInchesParse (l : List Char) : Option ℚ := do
  let l := l.dropWhile isPyWs
  let (f, r) ← parseDecNum l
  let r := r.dropWhile isPyWs
  match r with
  | c :: r1 =>
    if isQuoteS c then
      let r2 := r1.dropWhile isFeetSep
      let (i, r3) ← parseDecNum r2
      let r4 := r3.dropWhile isPyWs
      let r5 := match r4 with
                | c2 :: t => if isQuoteD c2 then t else r4
                | [] => r4
      if r5.dropWhile isPyWs = [] then some (f * 12 + i) else none
    else none
  | [] => none

/-- `_FEET_ONLY_PATTERN` (case-insensitive): a number followed by a single
quote, `ft` with an optional dot, or `feet`.  The alternatives are
distinguished by their first character, so no backtracking arises. -/
def feetOnlyParse (l : List Char) : Option ℚ := do
  let l := l.dropWhile isPyWs
  let (f, r) ← parseDecNum l
  let r := r.dropWhile isPyWs
  match r with
  | [] => none
  | c :: r1 =>
    if isQuoteS c then
      if r1.dropWhile isPyWs = [] then some (f * 12) else none
    else
      match matchCI "ft" r with
      | some r2 =>
        let r3 := match r2 with
                  | '.' :: t => t
                  | _ => r2
        if r3.dropWhile isPyWs = [] then some (f * 12) else none
      | none =>
        match matchCI "feet" r with
        | some r2 => if r2.dropWhile isPyWs = [] then some (f * 12) else none
        | none => none

/-- `_INCHES_ONLY_PATTERN` (case-insensitive): a number followed by a double
quote, `in` with an optional dot, `inch` or `inches`.  The regex tries
the alternative `in\.?` before `inch(?:es)?`, so an input such as
`12inch` matches through the second alternative after the first fails at
the end anchor. -/
def inchesOnlyParse (l : List Char) : Option ℚ := do
  let l := l.dropWhile isPyWs
  let (i, r) ← parseDecNum l
  let r := r.dropWhile isPyWs
  match r with
  | [] => none
  | c :: r1 =>
    if isQuoteD c then
      if r1.dropWhile isPyWs = [] then some i else none
    else
      match matchCI "in" r with
      | some r2 =>
        let okShort :=
          match r2 with
          | '.' :: t => t.dropWhile isPyWs = []
          | _ => false
        if okShort || decide (r2.dropWhile isPyWs = []) then some i
        else
          match matchCI "ch" r2 with
          | some r3 =>
            let okEs :=
              match matchCI "es" r3 with
              | some t => t.dropWhile isPyWs = []
              | none => false
            if okEs || decide (r3.dropWhile isPyWs = []) then some i else none
          | none => none
      | none => none

/-- normalization.py `normalize_dimension_to_inches`: strip; empty means not
a dimension; try the three patterns in order; otherwise fall back to the
plain `Decimal` constructor (numbers are read as inches), `none` when that
raises. -/
def normalize_dimension_to_inches (value : String) : Option PyDec :=
  let v := pyStripList value.data
  if v = [] then none
  else
    match feetInchesParse v with
    | some q => some (.num q)
    | none =>
      match feetOnlyParse v with
      | some q => some (.num q)
      | none =>
        match inchesOnlyParse v with
        | some q => some (.num q)
        | none => pyDecParseCore (v.filter (fun c => c ≠ '_'))

/-! ### Value equality (normalization.py `values_match`) -/

/-- The known dimension property names of `values_match`. -/
def dimensionProps : List String :=
  ["width", "height", "depth", "thickness", "length", "area"]

/-- Case-insensitive whitespace-normalized string equality: the final
fallback of `values_match`. -/
def stringFallbackEq (a b : String) : Bool :=
  decide (normalize_case (normalize_whitespace a) = normalize_case (normalize_whitespace b))

/-- Lines 134-143 of normalization.py: attempt an exact decimal comparison
of both values; on any `InvalidOperation` (unparseable operand, or a
signaling NaN comparison) fall back to normalized string equality. -/
def numericOrStringCompare (a b : String) : Option Bool :=
  match pyDecParse a, pyDecParse b with
  | some da, some db =>
    match pyDecEq da db with
    | some r => some r
    | none => some (stringFallbackEq a b)
  | _, _ => some (stringFallbackEq a b)

/-- normalization.py `values_match`.  `none` operands model Python `None`.
The result `none` models an uncaught `InvalidOperation` escaping the
dimension branch (both operands parse as dimensions and one is a signaling
NaN): that comparison is outside the try block. -/
def values_match (valA valB : Option String) (propertyName : String := "") : Option Bool :=
  match valA, valB with
  | none, none => some true
  | none, some _ => some false
  | some _, none => some false
  | some va, some vb =>
    let a := pyStrip va
    let b := pyStrip vb
    if dimensionProps.contains (normalize_case propertyName) then
      match normalize_dimension_to_inches a, normalize_dimension_to_inches b with
      | some da, some db => pyDecEq da db
      | _, _ => numericOrStringCompare a b
    else numericOrStringCompare a b

/-! ### Basic lemmas on the string primitives -/

theorem dropWhile_head_not (p : Char → Bool) (l : List Char) :
    ∀ c, (l.dropWhile p).head? = some c → p c = false := by
  induction l with
  | nil => intro c h; simp at h
  | cons a t ih =>
    intro c h
    rw [List.dropWhile_cons] at h
    by_cases ha : p a
    · exact ih c (by simpa [ha] using h)
    · rw [if_neg ha] at h
      simp only [List.head?_cons, Option.some.injEq] at h
      subst h
      simpa using ha

theorem dropWhile_eq_self_of (p : Char → Bool) (l : List Char)
    (h : ∀ c, l.head? = some c → p c = false) : l.dropWhile p = l := by
  cases l with
  | nil => rfl
  | cons a t => rw [List.dropWhile_cons, h a rfl]; simp

theorem getLast?_dropWhile (p : Char → Bool) (l : List Char)
    (hne : l.dropWhile p ≠ []) : (l.dropWhile p).getLast? = l.getLast? := by
  obtain ⟨t, ht⟩ := List.dropWhile_suffix (l := l) p
  conv_rhs => rw [← ht]
  rw [List.getLast?_append_of_ne_nil _ hne]

theorem pyStripList_idem (l : List Char) :
    pyStripList (pyStripList l) = pyStripList l := by
  unfold pyStripList
  have h1 : ((l.dropWhile isPyWs).reverse.dropWhile isPyWs).reverse.dropWhile isPyWs
      = ((l.dropWhile isPyWs).reverse.dropWhile isPyWs).reverse := by
    apply dropWhile_eq_self_of
    intro c hc
    rw [List.head?_reverse] at hc
    by_cases hnil : (l.dropWhile isPyWs).reverse.dropWhile isPyWs = []
    · rw [hnil] at hc; simp at hc
    · rw [getLast?_dropWhile _ _ hnil, List.getLast?_reverse] at hc
      exact dropWhile_head_not isPyWs l c hc
  rw [h1, List.reverse_reverse]
  have h2 : ((l.dropWhile isPyWs).reverse.dropWhile isPyWs).dropWhile isPyWs
      = (l.dropWhile isPyWs).reverse.dropWhile isPyWs := by
    apply dropWhile_eq_self_of
    intro c hc
    exact dropWhile_head_not isPyWs (l.dropWhile isPyWs).reverse c hc
  rw [h2]

theorem pyStrip_idem (s : String) : pyStrip (pyStrip s) = pyStrip s := by
  show (⟨pyStripList (pyStripList s.data)⟩ : String) = ⟨pyStripList s.data⟩
  rw [pyStripList_idem]

/-! ### Symmetry of the comparison primitives -/

theorem decide_eq_symm {α : Type _} [DecidableEq α] (x y : α) :
    decide (x = y) = decide (y = x) := by
  by_cases h : x = y
  · subst h; rfl
  · have h2 : ¬(y = x) := fun e => h e.symm
    simp [h, h2]

theorem pyDecEq_symm (x y : PyDec) : pyDecEq x y = pyDecEq y x := by
  cases x <;> cases y <;> first
    | rfl
    | (simp only [pyDecEq]; rw [decide_eq_symm])

theorem stringFallbackEq_symm (a b : String) :
    stringFallbackEq a b = stringFallbackEq b a := by
  unfold stringFallbackEq
  exact decide_eq_symm _ _

theorem numericOrStringCompare_symm (a b : String) :
    numericOrStringCompare a b = numericOrStringCompare b a := by
  unfold numericOrStringCompare
  cases hA : pyDecParse a <;> cases hB : pyDecParse b <;>
    simp only [stringFallbackEq_symm a b, pyDecEq_symm]

/-- A stripped value parsing as a `Decimal` NaN (quiet or signaling): the
values on which `values_match` fails to be reflexive. -/
def parsesAsNaN (s : String) : Bool :=
  match pyDecParse (pyStrip s) with
  | some .nan => true
  | some .snan => true
  | _ => false

/-- When `normalize_dimension_to_inches` of an already-stripped value yields
a NaN, the value came through the plain-`Decimal` fallback, so the direct
parse agrees. -/
theorem dimension_nan_from_parse (s : String) (d : PyDec)
    (h : normalize_dimension_to_inches (pyStrip s) = some d)
    (hd : d = PyDec.nan ∨ d = PyDec.snan) :
    pyDecParse (pyStrip s) = some d := by
  have hv : pyStripList (pyStrip s).data = (pyStrip s).data := by
    show pyStripList (pyStripList s.data) = pyStripList s.data
    exact pyStripList_idem _
  unfold normalize_dimension_to_inches at h
  rw [hv] at h
  unfold pyDecParse
  rw [hv]
  by_cases hnil : (pyStrip s).data = []
  · rw [if_pos hnil] at h; exact absurd h (by simp)
  · rw [if_neg hnil] at h
    cases h1 : feetInchesParse (pyStrip s).data with
    | some q =>
      rw [h1] at h
      simp only [Option.some.injEq] at h
      cases hd <;> simp_all
    | none =>
      rw [h1] at h
      cases h2 : feetOnlyParse (pyStrip s).data with
      | some q =>
        rw [h2] at h
        simp only [Option.some.injEq] at h
        cases hd <;> simp_all
      | none =>
        rw [h2] at h
        cases h3 : inchesOnlyParse (pyStrip s).data with
        | some q =>
          rw [h3] at h
          simp only [Option.some.injEq] at h
          cases hd <;> simp_all
        | none =>
          rw [h3] at h
          exact h

theorem pyDecEq_refl_of_not_nan (d : PyDec)
    (h1 : d ≠ PyDec.nan) (h2 : d ≠ PyDec.snan) : pyDecEq d d = some true := by
  cases d with
  | num q => simp [pyDecEq]
  | inf b => simp [pyDecEq]
  | nan => exact absurd rfl h1
  | snan => exact absurd rfl h2

theorem numericOrStringCompare_refl (a : String) (h : ∀ d, pyDecParse a = some d →
    d ≠ PyDec.nan) : numericOrStringCompare a a = some true := by
  unfold numericOrStringCompare
  cases hp : pyDecParse a with
  | none => simp [stringFallbackEq]
  | some d =>
    cases d with
    | num q => simp [pyDecEq]
    | inf b => simp [pyDecEq]
    | nan => exact absurd rfl (h _ hp)
    | snan => simp [pyDecEq, stringFallbackEq]

/-- C2 (counterexample): the claim asserts reflexivity of values_match for
every value, including values that parse as Decimals.  The value NaN parses
as a Decimal quiet NaN, and Python Decimal equality on a quiet NaN is False,
so values_match(NaN, NaN) returns False: the claim fails as stated. -/
theorem values_match_nan_not_reflexive :
    values_match (some "NaN") (some "NaN") "" = some false := by rfl

/-- C2 (amended): values_match is symmetric for all values and property
names (a raised InvalidOperation is likewise symmetric), and values_match(x,x)
is true for every value x that is absent or whose stripped content does not
parse as a Decimal NaN or sNaN. -/
theorem values_match_symm_and_refl :
    (∀ (a b : Option String) (p : String), values_match a b p = values_match b a p) ∧
    (∀ (x : Option String) (p : String),
      (∀ s, x = some s → parsesAsNaN s = false) →
      values_match x x p = some true) := by
  have hred : ∀ (p x y : String), values_match (some x) (some y) p =
      (if dimensionProps.contains (normalize_case p) = true then
         match normalize_dimension_to_inches (pyStrip x),
               normalize_dimension_to_inches (pyStrip y) with
         | some da, some db => pyDecEq da db
         | _, _ => numericOrStringCompare (pyStrip x) (pyStrip y)
       else numericOrStringCompare (pyStrip x) (pyStrip y)) :=
    fun _ _ _ => rfl
  constructor
  · intro a b p
    cases a with
    | none => cases b <;> rfl
    | some va =>
      cases b with
      | none => rfl
      | some vb =>
        rw [hred p va vb, hred p vb va]
        by_cases hdim : dimensionProps.contains (normalize_case p) = true
        · rw [if_pos hdim, if_pos hdim]
          cases h1 : normalize_dimension_to_inches (pyStrip va) <;>
            cases h2 : normalize_dimension_to_inches (pyStrip vb) <;>
            simp only [] <;>
            first
              | exact numericOrStringCompare_symm _ _
              | exact pyDecEq_symm _ _
        · rw [if_neg hdim, if_neg hdim]
          exact numericOrStringCompare_symm _ _
  · intro x p hx
    cases x with
    | none => rfl
    | some s =>
      have hnan : parsesAsNaN s = false := hx s rfl
      have hparse : ∀ d, pyDecParse (pyStrip s) = some d →
          d ≠ PyDec.nan ∧ d ≠ PyDec.snan := by
        intro d hd
        unfold parsesAsNaN at hnan
        rw [hd] at hnan
        cases d <;> simp_all
      rw [hred p s s]
      by_cases hdim : dimensionProps.contains (normalize_case p) = true
      · rw [if_pos hdim]
        cases hnd : normalize_dimension_to_inches (pyStrip s) with
        | none => exact numericOrStringCompare_refl _ (fun d hd => (hparse d hd).1)
        | some d =>
          simp only []
          apply pyDecEq_refl_of_not_nan
          · intro h
            subst h
            exact (hparse _ (dimension_nan_from_parse s _ hnd (Or.inl rfl))).1 rfl
          · intro h
            subst h
            exact (hparse _ (dimension_nan_from_parse s _ hnd (Or.inr rfl))).2 rfl
      · rw [if_neg hdim]
        exact numericOrStringCompare_refl _ (fun d hd => (hparse d hd).1)

/-- Witness for the C2 theorem at concrete inputs. -/
theorem values_match_symm_and_refl_witness :
    values_match (some "3.5") (some "3.50") "width"
      = values_match (some "3.50") (some "3.5") "width" ∧
    values_match (some "wood") (some "wood") "finish" = some true :=
  ⟨values_match_symm_and_refl.1 _ _ _,
   values_match_symm_and_refl.2 (some "wood") "finish"
     (by intro s hs; injection hs with h; subst h; rfl)⟩

/-! ### Property values

Item and snapshot property maps are JSONB dictionaries.  The engine stores
strings, integers, nulls and (for workflow metadata) nested dictionaries.
Python dictionaries preserve insertion order and updating an existing key
keeps its position; the association-list operations below mirror that.
Dictionary equality is compared entrywise in order: every dictionary-valued
property the engine writes is built with a fixed key order, where this
coincides with the order-insensitive Python comparison.
-/

inductive PVal where
  | str : String → PVal
  | int : ℤ → PVal
  | dict : List (String × PVal) → PVal
  | null : PVal
deriving Repr

mutual

def PVal.beq : PVal → PVal → Bool
  | .str a, .str b => a == b
  | .int a, .int b => a == b
  | .null, .null => true
  | .dict a, .dict b => PVal.beqEntries a b
  | _, _ => false

def PVal.beqEntries : List (String × PVal) → List (String × PVal) → Bool
  | [], [] => true
  | (k1, v1) :: t1, (k2, v2) :: t2 => k1 == k2 && PVal.beq v1 v2 && PVal.beqEntries t1 t2
  | _, _ => false

end

instance : BEq PVal := ⟨PVal.beq⟩

/-- Python `str()` of a stored property value, as used by the comparison and
conflict code before calling values_match.  A nested dictionary would render
through repr; the engine never compares dictionary-valued properties through
values_match in the modelled flows, so a placeholder is used. -/
def PVal.pyStr : PVal → String
  | .str s => s
  | .int n => toString n
  | .null => "None"
  | .dict _ => "dict"

/-- `d.get(k)`: first binding wins, `none` when absent. -/
def aGet {κ α : Type} [DecidableEq κ] (k : κ) : List (κ × α) → Option α
  | [] => none
  | (k2, v) :: t => if k = k2 then some v else aGet k t

/-- `d[k] = v`: replace in place, append when absent. -/
def aSet {κ α : Type} [DecidableEq κ] (k : κ) (v : α) : List (κ × α) → List (κ × α)
  | [] => [(k, v)]
  | (k2, w) :: t => if k = k2 then (k, v) :: t else (k2, w) :: aSet k v t

/-- `base.update(upd)`. -/
def aUpdate {κ α : Type} [DecidableEq κ] (base upd : List (κ × α)) : List (κ × α) :=
  upd.foldl (fun acc kv => aSet kv.1 kv.2 acc) base

/-- `d.get(k)` on a stored JSON property map as Python sees it: a stored
null deserializes to None and is indistinguishable from an absent key. -/
def pyGet (k : String) (props : List (String × PVal)) : Option PVal :=
  match aGet k props with
  | some PVal.null => none
  | v => v

/-! ### The entity/snapshot/edge store

Rows of the three tables of models/core.py.  Identity columns are naturals;
`created_at` is a logical timestamp.  Unordered SQL selects are modelled by
insertion order, which is what the SQLite test database observes.
-/

structure Item where
  id : ℕ
  item_type : String
  identifier : Option String
  properties : List (String × PVal)
deriving Repr

structure Snapshot where
  id : ℕ
  item_id : ℕ
  context_id : ℕ
  source_id : ℕ
  properties : List (String × PVal)
  created_at : ℕ
deriving Repr

structure Connection where
  id : ℕ
  source_item_id : ℕ
  target_item_id : ℕ
  properties : List (String × PVal)
deriving Repr

structure DB where
  items : List Item
  snapshots : List Snapshot
  connections : List Connection
  nextId : ℕ
deriving Repr

def DB.findItem (db : DB) (i : ℕ) : Option Item :=
  db.items.find? (fun it => it.id == i)

/-- snapshots.py and comparison.py `_get_ordinal`: the milestone ordinal from
the item property map, defaulting to 0.  Ordinals are stored as integers
(the registry declares the milestone ordinal as a required number; a
non-integer value would make the Python ordering comparisons raise and is
not modelled). -/
def getOrdinal (it : Item) : ℤ :=
  match aGet "ordinal" it.properties with
  | some (.int n) => n
  | _ => 0

/-- Python `int(v)` as applied by import_service.py to ordinal values:
succeeds on integers and on strings holding an integer literal. -/
def pyInt : PVal → Option ℤ
  | .int n => some n
  | .str s => (pyStrip s).toInt?
  | _ => none

structure ItemSummary where
  id : ℕ
  item_type : String
  identifier : Option String
deriving Repr

def Item.summary (it : Item) : ItemSummary :=
  ⟨it.id, it.item_type, it.identifier⟩

/-! ### Effective-value resolution (comparison.py) -/

/-- `candidates.sort(key=ordinal, reverse=True)` followed by taking the
first element: Python sort is stable, so this is the leftmost candidate with
the maximal ordinal, here computed by a left fold that replaces the current
best only on a strictly greater ordinal. -/
def selectMaxByOrdinal (first : Snapshot × ℤ) (rest : List (Snapshot × ℤ)) : Snapshot :=
  (rest.foldl (fun acc p => if p.2 > acc.2 then p else acc) first).1

/-- The snapshot query of `_get_effective_snapshot_at_context`: every
snapshot of the item, restricted to one source when a filter is given. -/
def snapshotQuery (db : DB) (itemId : ℕ) (srcId : Option ℕ) : List Snapshot :=
  db.snapshots.filter (fun s =>
    s.item_id == itemId &&
      (match srcId with
       | some sid => s.source_id == sid
       | none => true))

/-- The candidate list of `_get_effective_snapshot_at_context`: queried
snapshots whose context ordinal is at or below the target ordinal, paired
with that ordinal. -/
def effectiveCandidates (db : DB) (itemId : ℕ) (srcId : Option ℕ)
    (targetOrdinal : ℤ) : List (Snapshot × ℤ) :=
  (snapshotQuery db itemId srcId).filterMap (fun s =>
    match db.findItem s.context_id with
    | some c => if getOrdinal c ≤ targetOrdinal then some (s, getOrdinal c) else none
    | none => none)

/-- comparison.py `_get_effective_snapshot_at_context`: the snapshot for the
item (from one source, or any source) with the greatest context ordinal at
or below the target context ordinal, or `none` when no snapshot qualifies.
The error cases model the 404 raised when the target context, or the context
of a queried snapshot, is missing from the store. -/
def getEffectiveSnapshotAtContext (db : DB) (itemId ctxId : ℕ) (srcId : Option ℕ) :
    Except String (Option Snapshot) :=
  match db.findItem ctxId with
  | none => .error "Context not found"
  | some target =>
    if (snapshotQuery db itemId srcId).isEmpty then .ok none
    else if (snapshotQuery db itemId srcId).all
        (fun s => (db.findItem s.context_id).isSome) then
      match effectiveCandidates db itemId srcId (getOrdinal target) with
      | [] => .ok none
      | first :: rest => .ok (some (selectMaxByOrdinal first rest))
    else .error "Context not found"

/-! ### The effective-value route (snapshots.py `get_effective_value`)

The route takes an item and a source only: it returns the most recent
snapshot of the pair by milestone ordinal, with no as-of cutoff.  Numeric
errors are the HTTP status codes the route raises; the store component of
the result records that the handler performs no writes.
-/

structure EffectiveValue where
  properties : List (String × PVal)
  as_of_context : ItemSummary
  source : ItemSummary
  snapshot_created_at : ℕ
deriving Repr

def get_effective_value (db : DB) (itemId sourceId : ℕ) :
    Except ℕ EffectiveValue × DB :=
  match db.findItem itemId with
  | none => (.error 404, db)
  | some _ =>
    match db.findItem sourceId with
    | none => (.error 404, db)
    | some sourceItem =>
      let snaps := db.snapshots.filter (fun s =>
        s.item_id == itemId && s.source_id == sourceId)
      match snaps with
      | [] => (.error 404, db)
      | first :: rest =>
        -- contexts.get(context_id, Item(properties={})) defaults the ordinal to 0
        let ordOf : Snapshot → ℤ := fun s =>
          match db.findItem s.context_id with
          | some c => getOrdinal c
          | none => 0
        let best := selectMaxByOrdinal (first, ordOf first)
          (rest.map (fun s => (s, ordOf s)))
        match db.findItem best.context_id with
        | none => (.error 500, db)   -- AttributeError on the missing context
        | some bestCtx =>
          (.ok { properties := best.properties
                 as_of_context := bestCtx.summary
                 source := sourceItem.summary
                 snapshot_created_at := best.created_at }, db)

/-! ### Properties of the stable argmax selection -/

theorem selectMaxByOrdinal_spec (first : Snapshot × ℤ) (rest : List (Snapshot × ℤ)) :
    ∃ p, p ∈ first :: rest ∧ selectMaxByOrdinal first rest = p.1 ∧
      ∀ q ∈ first :: rest, q.2 ≤ p.2 := by
  induction rest generalizing first with
  | nil => exact ⟨first, List.mem_singleton.mpr rfl, rfl, by simp⟩
  | cons b t ih =>
    obtain ⟨p, hp, he, hall⟩ := ih (if b.2 > first.2 then b else first)
    have he2 : selectMaxByOrdinal first (b :: t) = p.1 := he
    by_cases hb : b.2 > first.2
    · rw [if_pos hb] at hp hall
      refine ⟨p, ?_, he2, ?_⟩
      · simp only [List.mem_cons] at hp ⊢
        tauto
      · intro r hr
        simp only [List.mem_cons] at hr
        rcases hr with h | h | h
        · subst h
          exact le_trans (le_of_lt hb) (hall _ (List.mem_cons_self _ _))
        · subst h
          exact hall _ (List.mem_cons_self _ _)
        · exact hall _ (List.mem_cons_of_mem _ h)
    · rw [if_neg hb] at hp hall
      refine ⟨p, ?_, he2, ?_⟩
      · simp only [List.mem_cons] at hp ⊢
        tauto
      · intro r hr
        simp only [List.mem_cons] at hr
        rcases hr with h | h | h
        · subst h
          exact hall _ (List.mem_cons_self _ _)
        · subst h
          exact le_trans (le_of_not_lt hb) (hall _ (List.mem_cons_self _ _))
        · exact hall _ (List.mem_cons_of_mem _ h)

theorem mem_snapshotQuery (db : DB) (itemId srcId : ℕ) (s : Snapshot) :
    s ∈ snapshotQuery db itemId (some srcId) ↔
      s ∈ db.snapshots ∧ s.item_id = itemId ∧ s.source_id = srcId := by
  unfold snapshotQuery
  rw [List.mem_filter]
  simp [Bool.and_eq_true]

theorem mem_effectiveCandidates (db : DB) (itemId srcId : ℕ) (o t : ℤ) (s : Snapshot) :
    (s, o) ∈ effectiveCandidates db itemId (some srcId) t ↔
      s ∈ snapshotQuery db itemId (some srcId) ∧
        ∃ c, db.findItem s.context_id = some c ∧ getOrdinal c = o ∧ o ≤ t := by
  unfold effectiveCandidates
  rw [List.mem_filterMap]
  constructor
  · rintro ⟨a, ha, hfa⟩
    cases hfind : db.findItem a.context_id with
    | none => rw [hfind] at hfa; cases hfa
    | some c =>
      rw [hfind] at hfa
      dsimp only at hfa
      by_cases hle : getOrdinal c ≤ t
      · rw [if_pos hle] at hfa
        have h := Option.some.inj hfa
        have h1 : a = s := congrArg Prod.fst h
        have h2 : getOrdinal c = o := congrArg Prod.snd h
        subst h1
        exact ⟨ha, c, hfind, h2, h2 ▸ hle⟩
      · rw [if_neg hle] at hfa
        cases hfa
  · rintro ⟨hs, c, hc, ho, hle⟩
    refine ⟨s, hs, ?_⟩
    rw [hc]
    dsimp only
    rw [if_pos (ho ▸ hle), ho]

/-- C1 (amended): effective-value resolution applies the as-of cutoff — the
internal resolver `_get_effective_snapshot_at_context` (used by every
comparison call) returns a snapshot of the (entity, source) pair whose
context ordinal is at or below the target ordinal and maximal among the
eligible snapshots, and returns no effective value when the source has no
snapshot at or below that ordinal; the exposed effective-value route,
however, takes no as-of context argument (see the companion
counterexample). -/
theorem effective_snapshot_applies_cutoff
    (db : DB) (itemId ctxId srcId : ℕ) (ctx : Item)
    (hctx : db.findItem ctxId = some ctx)
    (hwf : ∀ s ∈ db.snapshots, (db.findItem s.context_id).isSome = true) :
    ∃ result, getEffectiveSnapshotAtContext db itemId ctxId (some srcId) = .ok result ∧
      (∀ snap, result = some snap →
        snap ∈ db.snapshots ∧ snap.item_id = itemId ∧ snap.source_id = srcId ∧
        ∃ c, db.findItem snap.context_id = some c ∧ getOrdinal c ≤ getOrdinal ctx ∧
          ∀ s ∈ db.snapshots, s.item_id = itemId → s.source_id = srcId →
            ∀ sc, db.findItem s.context_id = some sc →
              getOrdinal sc ≤ getOrdinal ctx → getOrdinal sc ≤ getOrdinal c) ∧
      (result = none →
        ∀ s ∈ db.snapshots, s.item_id = itemId → s.source_id = srcId →
          ∀ sc, db.findItem s.context_id = some sc →
            ¬ getOrdinal sc ≤ getOrdinal ctx) := by
  unfold getEffectiveSnapshotAtContext
  rw [hctx]
  dsimp only
  by_cases hemp : (snapshotQuery db itemId (some srcId)).isEmpty
  · rw [if_pos hemp]
    refine ⟨none, rfl, ?_, ?_⟩
    · intro snap h
      cases h
    · intro _ s hs hitem hsrc sc _ _
      have hmem : s ∈ snapshotQuery db itemId (some srcId) :=
        (mem_snapshotQuery db itemId srcId s).mpr ⟨hs, hitem, hsrc⟩
      rw [List.isEmpty_iff] at hemp
      rw [hemp] at hmem
      exact absurd hmem (List.not_mem_nil s)
  · rw [if_neg hemp]
    have hall : (snapshotQuery db itemId (some srcId)).all
        (fun s => (db.findItem s.context_id).isSome) = true := by
      rw [List.all_eq_true]
      intro s hs
      exact hwf s ((mem_snapshotQuery db itemId srcId s).mp hs).1
    rw [if_pos hall]
    cases hcand : effectiveCandidates db itemId (some srcId) (getOrdinal ctx) with
    | nil =>
      refine ⟨none, rfl, ?_, ?_⟩
      · intro snap h
        cases h
      · intro _ s hs hitem hsrc sc hsc hle
        have hmem : s ∈ snapshotQuery db itemId (some srcId) :=
          (mem_snapshotQuery db itemId srcId s).mpr ⟨hs, hitem, hsrc⟩
        have : (s, getOrdinal sc) ∈ effectiveCandidates db itemId (some srcId) (getOrdinal ctx) :=
          (mem_effectiveCandidates db itemId srcId _ _ s).mpr ⟨hmem, sc, hsc, rfl, hle⟩
        rw [hcand] at this
        exact absurd this (List.not_mem_nil _)
    | cons first rest =>
      obtain ⟨p, hp, he, hmax⟩ := selectMaxByOrdinal_spec first rest
      refine ⟨some (selectMaxByOrdinal first rest), rfl, ?_, ?_⟩
      · intro snap hsnap
        have hps : snap = p.1 := by
          rw [← he]
          exact Option.some.inj hsnap.symm
        subst hps
        have hpc : (p.1, p.2) ∈ effectiveCandidates db itemId (some srcId) (getOrdinal ctx) := by
          rw [hcand]
          exact hp
        obtain ⟨hq, c, hc, ho, hle⟩ := (mem_effectiveCandidates db itemId srcId _ _ _).mp hpc
        obtain ⟨hmem, hitem, hsrc⟩ := (mem_snapshotQuery db itemId srcId _).mp hq
        refine ⟨hmem, hitem, hsrc, c, hc, ho ▸ hle, ?_⟩
        intro s hs hsi hss sc hsc hsle
        have hmem2 : s ∈ snapshotQuery db itemId (some srcId) :=
          (mem_snapshotQuery db itemId srcId s).mpr ⟨hs, hsi, hss⟩
        have hsc2 : (s, getOrdinal sc) ∈ effectiveCandidates db itemId (some srcId) (getOrdinal ctx) :=
          (mem_effectiveCandidates db itemId srcId _ _ s).mpr ⟨hmem2, sc, hsc, rfl, hsle⟩
        rw [hcand] at hsc2
        have := hmax _ hsc2
        rw [← ho] at this
        exact this
      · intro h
        cases h

/-- Concrete store used by the C1 counterexample and several witnesses: a
door described by one schedule source at two milestones of ordinals 100 and
200. -/
def dbTwoMilestones : DB :=
  { items :=
      [ ⟨1, "door", some "D1", []⟩
      , ⟨2, "schedule", some "S", []⟩
      , ⟨3, "milestone", some "A", [("ordinal", .int 100)]⟩
      , ⟨4, "milestone", some "B", [("ordinal", .int 200)]⟩ ]
  , snapshots :=
      [ ⟨5, 1, 3, 2, [("finish", .str "wood")], 0⟩
      , ⟨6, 1, 4, 2, [("finish", .str "metal")], 1⟩ ]
  , connections := []
  , nextId := 7 }

/-- C1 (counterexample): the exposed effective-value route neither takes an
as-of context argument nor applies an ordinal cutoff.  In the store above,
with the target context of ordinal 100 present, the only call the route
admits for the pair returns the snapshot taken at ordinal 200 — a snapshot
with ordinal greater than the ordinal of the target context is selected. -/
theorem get_effective_value_no_cutoff :
    (get_effective_value dbTwoMilestones 1 2).1
      = Except.ok
          { properties := [("finish", PVal.str "metal")]
            as_of_context := ⟨4, "milestone", some "B"⟩
            source := ⟨2, "schedule", some "S"⟩
            snapshot_created_at := 1 }
    ∧ (dbTwoMilestones.findItem 3).map getOrdinal = some 100
    ∧ (dbTwoMilestones.findItem 4).map getOrdinal = some 200 :=
  ⟨rfl, rfl, rfl⟩

/-- Witness for the C1 theorem: at the ordinal-100 context the internal
resolver selects the ordinal-100 snapshot. -/
theorem effective_snapshot_applies_cutoff_witness :
    ∃ result, getEffectiveSnapshotAtContext dbTwoMilestones 1 3 (some 2) = .ok result ∧
      (∀ snap, result = some snap →
        snap ∈ dbTwoMilestones.snapshots ∧ snap.item_id = 1 ∧ snap.source_id = 2 ∧
        ∃ c, dbTwoMilestones.findItem snap.context_id = some c ∧
          getOrdinal c ≤ getOrdinal ⟨3, "milestone", some "A", [("ordinal", .int 100)]⟩ ∧
          ∀ s ∈ dbTwoMilestones.snapshots, s.item_id = 1 → s.source_id = 2 →
            ∀ sc, dbTwoMilestones.findItem s.context_id = some sc →
              getOrdinal sc ≤ getOrdinal ⟨3, "milestone", some "A", [("ordinal", .int 100)]⟩ →
                getOrdinal sc ≤ getOrdinal c) ∧
      (result = none →
        ∀ s ∈ dbTwoMilestones.snapshots, s.item_id = 1 → s.source_id = 2 →
          ∀ sc, dbTwoMilestones.findItem s.context_id = some sc →
            ¬ getOrdinal sc ≤ getOrdinal ⟨3, "milestone", some "A", [("ordinal", .int 100)]⟩) :=
  effective_snapshot_applies_cutoff dbTwoMilestones 1 3 2
    ⟨3, "milestone", some "A", [("ordinal", .int 100)]⟩ rfl
    (by decide)

/-- C8: carry-forward — when every snapshot of the (entity, source) pair
sits at a context ordinal at or below the ordinal of context C1, and C1 is
at or below C2, resolving the entity at C2 from the source returns the very
same result as resolving it at C1 (in particular the same snapshot and the
same properties). -/
theorem carry_forward
    (db : DB) (e S c1Id c2Id : ℕ) (c1 c2 : Item)
    (h1 : db.findItem c1Id = some c1) (h2 : db.findItem c2Id = some c2)
    (h12 : getOrdinal c1 ≤ getOrdinal c2)
    (hall : ∀ s ∈ db.snapshots, s.item_id = e → s.source_id = S →
      ∀ c, db.findItem s.context_id = some c → getOrdinal c ≤ getOrdinal c1) :
    getEffectiveSnapshotAtContext db e c2Id (some S) =
      getEffectiveSnapshotAtContext db e c1Id (some S) := by
  unfold getEffectiveSnapshotAtContext
  rw [h1, h2]
  dsimp only
  have hcand : effectiveCandidates db e (some S) (getOrdinal c2)
      = effectiveCandidates db e (some S) (getOrdinal c1) := by
    unfold effectiveCandidates
    apply List.filterMap_congr
    intro s hs
    obtain ⟨hmem, hitem, hsrc⟩ := (mem_snapshotQuery db e S s).mp hs
    cases hfind : db.findItem s.context_id with
    | none => rfl
    | some c =>
      have hc1 : getOrdinal c ≤ getOrdinal c1 := hall s hmem hitem hsrc c hfind
      have hc2 : getOrdinal c ≤ getOrdinal c2 := le_trans hc1 h12
      dsimp only
      rw [if_pos hc1, if_pos hc2]
  rw [hcand]

/-- Store for the carry-forward witness (spec scenario 1): one snapshot at
the ordinal-100 milestone, nothing at the ordinal-200 milestone. -/
def dbCarry : DB :=
  { items :=
      [ ⟨1, "door", some "D1", []⟩
      , ⟨2, "schedule", some "S", []⟩
      , ⟨3, "milestone", some "A", [("ordinal", .int 100)]⟩
      , ⟨4, "milestone", some "B", [("ordinal", .int 200)]⟩ ]
  , snapshots := [ ⟨5, 1, 3, 2, [("finish", .str "wood")], 0⟩ ]
  , connections := []
  , nextId := 6 }

/-- Witness for the C8 theorem: resolving at the later milestone carries the
ordinal-100 snapshot forward. -/
theorem carry_forward_witness :
    getEffectiveSnapshotAtContext dbCarry 1 4 (some 2) =
      getEffectiveSnapshotAtContext dbCarry 1 3 (some 2) :=
  carry_forward dbCarry 1 2 3 4
    ⟨3, "milestone", some "A", [("ordinal", .int 100)]⟩
    ⟨4, "milestone", some "B", [("ordinal", .int 200)]⟩
    rfl rfl (by decide)
    (by
      intro s hs _ _ c hc
      simp only [dbCarry, List.mem_singleton] at hs
      subst hs
      have hc2 : some (⟨3, "milestone", some "A", [("ordinal", PVal.int 100)]⟩ : Item)
          = some c := hc
      cases hc2
      decide)

/-- C10: when the store holds zero snapshots for the (item, source) pair,
the effective-value route fails with HTTP 404 — whether because the item or
source lookup failed or because the snapshot query came back empty — and the
store is left unchanged. -/
theorem get_effective_value_404_on_empty
    (db : DB) (itemId sourceId : ℕ)
    (h : db.snapshots.filter (fun s =>
      s.item_id == itemId && s.source_id == sourceId) = []) :
    (get_effective_value db itemId sourceId).1 = .error 404 ∧
    (get_effective_value db itemId sourceId).2 = db := by
  unfold get_effective_value
  cases hi : db.findItem itemId with
  | none => exact ⟨rfl, rfl⟩
  | some it =>
    cases hs : db.findItem sourceId with
    | none => exact ⟨rfl, rfl⟩
    | some src =>
      dsimp only
      rw [h]
      exact ⟨rfl, rfl⟩

/-- Witness for the C10 theorem: item 1 and item 3 both exist in the store
but no snapshot links them as item and source, so the route answers 404 and
the store is unchanged. -/
theorem get_effective_value_404_witness :
    (get_effective_value dbTwoMilestones 1 3).1 = .error 404 ∧
    (get_effective_value dbTwoMilestones 1 3).2 = dbTwoMilestones :=
  get_effective_value_404_on_empty dbTwoMilestones 1 3 rfl

/-! ### The item-type registry (core/type_config.py)

Only the semantic fields of each TypeConfig are modelled (name, category and
the three behavioral flags); display metadata, property schemas and target
lists play no role in the reconciliation engine. -/

structure TypeConfig where
  name : String
  category : String
  is_source_type : Bool
  is_context_type : Bool
  exclude_from_conflicts : Bool
deriving Repr, DecidableEq

/-- The registration calls of type_config.py, in order. -/
def ITEM_TYPES : List TypeConfig :=
  [ ⟨"project", "organization", false, false, false⟩
  , ⟨"portfolio", "organization", false, false, false⟩
  , ⟨"firm", "organization", false, false, false⟩
  , ⟨"building", "spatial", false, false, false⟩
  , ⟨"floor", "spatial", false, false, false⟩
  , ⟨"room", "spatial", false, false, false⟩
  , ⟨"door", "spatial", false, false, false⟩
  , ⟨"schedule", "document", true, false, false⟩
  , ⟨"specification", "document", true, false, false⟩
  , ⟨"drawing", "document", true, false, false⟩
  , ⟨"milestone", "temporal", false, true, false⟩
  , ⟨"phase", "temporal", false, false, false⟩
  , ⟨"import_batch", "temporal", false, false, true⟩
  , ⟨"change", "workflow", false, false, true⟩
  , ⟨"conflict", "workflow", false, false, true⟩
  , ⟨"decision", "workflow", true, false, true⟩
  , ⟨"note", "workflow", false, false, true⟩ ]

def get_type_config (t : String) : Option TypeConfig :=
  ITEM_TYPES.find? (fun c => c.name == t)

def get_conflict_excluded_types : List String :=
  (ITEM_TYPES.filter (fun c => c.exclude_from_conflicts)).map (fun c => c.name)

/-- `_validate_context` (snapshots.py and comparison.py): 404 when the item
is missing, 400 when its type is not registered as a context type. -/
def validateContext (db : DB) (contextId : ℕ) : Except ℕ Item :=
  match db.findItem contextId with
  | none => .error 404
  | some context =>
    match get_type_config context.item_type with
    | some cfg => if cfg.is_context_type then .ok context else .error 400
    | none => .error 400

/-! ### The resolved view (snapshots.py `get_resolved_view`)

The route excludes workflow self-snapshots through a hardcoded set of type
names — not through the registry flag `exclude_from_conflicts` (the set
omits `import_batch`, which the registry flags as excluded). -/

/-- The literal set in snapshots.py line 295 and import_service.py line
413. -/
def workflow_types : List String := ["change", "conflict", "decision", "note"]

/-- Python truthiness of an optional property value, as used by the
`or` chain on decision property names. -/
def pyTruthy : Option PVal → Bool
  | none => false
  | some (.str s) => s ≠ ""
  | some (.int n) => n ≠ 0
  | some (.dict d) => !d.isEmpty
  | some .null => false

/-- The effective snapshot per source: iterate the document snapshots,
skip those above the context ordinal, and keep for each source the first
snapshot seen with the greatest ordinal (a later snapshot replaces the kept
one only on a strictly greater ordinal, as in the code). -/
def resolvedEffectiveBySource (db : DB) (ctxOrdinal : ℤ)
    (docSnaps : List Snapshot) : List (ℕ × Snapshot) :=
  docSnaps.foldl (fun eff s =>
    match db.findItem s.context_id with
    | none => eff
    | some ctx =>
      if getOrdinal ctx > ctxOrdinal then eff
      else
        match aGet s.source_id eff with
        | none => aSet s.source_id s eff
        | some existing =>
          let existingOrdinal :=
            match db.findItem existing.context_id with
            | some c => getOrdinal c
            | none => 0
          if getOrdinal ctx > existingOrdinal then aSet s.source_id s eff
          else eff) []

/-- The decision property name: `properties.get("property_name") or
properties.get("property_path")`, kept when truthy.  A truthy non-string
name can never equal a snapshot property key and its resolved value is
never read back, so it is modelled as absent. -/
def decisionPropName (props : List (String × PVal)) : Option String :=
  match (if pyTruthy (aGet "property_name" props)
         then aGet "property_name" props
         else aGet "property_path" props) with
  | some (.str s) => if s = "" then none else some s
  | _ => none

/-- The decision scan of the resolved view: property names addressed by a
decision snapshot at or below the context ordinal, and the map of resolved
values (`resolved_value` entries that are not null; a later decision
overwrites an earlier one). -/
def decisionResolutions (db : DB) (ctxOrdinal : ℤ) (decSnaps : List Snapshot) :
    List String × List (String × PVal) :=
  decSnaps.foldl (fun acc ds =>
    match db.findItem ds.context_id with
    | none => acc
    | some c =>
      if getOrdinal c ≤ ctxOrdinal then
        match decisionPropName ds.properties with
        | none => acc
        | some rp =>
          let rps := if acc.1.contains rp then acc.1 else acc.1 ++ [rp]
          match aGet "resolved_value" ds.properties with
          | some PVal.null => (rps, acc.2)
          | none => (rps, acc.2)
          | some rv => (rps, aSet rp rv acc.2)
      else acc) ([], [])

/-- Codepoint-lexicographic comparison of character lists (the string order
of both Python and Lean). -/
def charListLe : List Char → List Char → Bool
  | [], _ => true
  | _ :: _, [] => false
  | a :: s, b :: t => if a < b then true else if b < a then false else charListLe s t

/-- Insertion step of the string sort. -/
def insertSorted (x : String) : List String → List String
  | [] => [x]
  | y :: t => if charListLe x.data y.data then x :: y :: t else y :: insertSorted x t

/-- Ascending sort of strings.  Python `sorted()` on distinct string keys
has a unique ascending result (ordering is codepoint-lexicographic both in
Python and on Lean strings), so a simple insertion sort is an exact model.
-/
def sortStrings (l : List String) : List String :=
  l.foldr insertSorted []

/-- `sorted(all_props)`: the union of the property keys of the effective
snapshots, deduplicated and sorted. -/
def sortedAllProps (eff : List (ℕ × Snapshot)) : List String :=
  sortStrings
    (eff.foldl (fun acc p =>
      (p.2.properties.map Prod.fst).foldl
        (fun a k => if a.contains k then a else a ++ [k]) acc) [])

/-- The display label of a source: its identifier when the source item
exists (possibly null), else the stringified id. -/
def sourceLabel (db : DB) (srcId : ℕ) : Option String :=
  match db.findItem srcId with
  | some it => it.identifier
  | none => some (toString srcId)

/-- One step of the per-property source map accumulation: a non-null value
of the property adds an entry keyed by the source label. -/
def svStep (db : DB) (prop : String) (acc : List (Option String × PVal))
    (p : ℕ × Snapshot) : List (Option String × PVal) :=
  match aGet prop p.2.properties with
  | some PVal.null => acc
  | none => acc
  | some v => aSet (sourceLabel db p.1) v acc

/-- The per-property source map of the resolved view: for each effective
source snapshot holding a non-null value of the property, one entry keyed by
the source label. -/
def sourceValuesFor (db : DB) (eff : List (ℕ × Snapshot)) (prop : String) :
    List (Option String × PVal) :=
  eff.foldl (svStep db prop) []

structure PropertyResolution where
  property_name : String
  status : String
  value : Option PVal
  sources : List (Option String × PVal)
deriving Repr

structure ResolvedView where
  item : ItemSummary
  context : ItemSummary
  properties : List PropertyResolution
  source_count : ℕ
  snapshot_count : ℕ
deriving Repr

/-- `all(values_match(str(first), str(v), property_name=p) for v in rest)`:
short-circuiting conjunction; `none` models a raised InvalidOperation. -/
def allAgree (first : PVal) (rest : List PVal) (prop : String) : Option Bool :=
  match rest with
  | [] => some true
  | v :: t =>
    match values_match (some first.pyStr) (some v.pyStr) prop with
    | none => none
    | some false => some false
    | some true => allAgree first t prop

/-- The status chain of the resolved view for one property.  `.ok none`
models the `continue` on an empty source map; `.error` models a raised
InvalidOperation. -/
def resolveProp (resolvedProps : List String) (resolvedVals : List (String × PVal))
    (prop : String) (svs : List (Option String × PVal)) :
    Except Unit (Option PropertyResolution) :=
  match svs with
  | [] => .ok none
  | v0 :: rest =>
    if resolvedProps.contains prop then
      .ok (some { property_name := prop, status := "resolved",
                  value := some ((aGet prop resolvedVals).getD v0.2), sources := svs })
    else if rest.isEmpty then
      .ok (some { property_name := prop, status := "single_source",
                  value := some v0.2, sources := svs })
    else
      match allAgree v0.2 (rest.map Prod.snd) prop with
      | none => .error ()
      | some true =>
        .ok (some { property_name := prop, status := "agreed",
                    value := some v0.2, sources := svs })
      | some false =>
        .ok (some { property_name := prop, status := "conflicted",
                    value := none, sources := svs })

/-- The property loop of the resolved view, in sorted property order; an
InvalidOperation raised for one property aborts the whole route. -/
def buildResolutions (db : DB) (resolvedProps : List String)
    (resolvedVals : List (String × PVal)) (eff : List (ℕ × Snapshot)) :
    List String → Except Unit (List PropertyResolution)
  | [] => .ok []
  | p :: t =>
    match resolveProp resolvedProps resolvedVals p (sourceValuesFor db eff p) with
    | .error e => .error e
    | .ok r =>
      match buildResolutions db resolvedProps resolvedVals eff t with
      | .error e => .error e
      | .ok rs =>
        match r with
        | some pr => .ok (pr :: rs)
        | none => .ok rs

/-- The document snapshots of the resolved view: sources that exist and are
not of a hardcoded workflow type. -/
def documentSnapshotsOf (db : DB) (allSnaps : List Snapshot) : List Snapshot :=
  allSnaps.filter (fun s =>
    match db.findItem s.source_id with
    | some src => !(workflow_types.contains src.item_type)
    | none => false)

/-- The decision snapshots of the resolved view. -/
def decisionSnapshotsOf (db : DB) (allSnaps : List Snapshot) : List Snapshot :=
  allSnaps.filter (fun s =>
    match db.findItem s.source_id with
    | some src => src.item_type == "decision"
    | none => false)

/-- The snapshot query of the resolved view: every snapshot of the item. -/
def allSnapshotsOf (db : DB) (itemId : ℕ) : List Snapshot :=
  db.snapshots.filter (fun s => s.item_id == itemId)

/-- The effective per-source snapshot map of the resolved view of an item at
a context. -/
def effOf (db : DB) (itemId : ℕ) (ctx : Item) : List (ℕ × Snapshot) :=
  resolvedEffectiveBySource db (getOrdinal ctx)
    (documentSnapshotsOf db (allSnapshotsOf db itemId))

/-- The decision scan of the resolved view of an item at a context. -/
def decOf (db : DB) (itemId : ℕ) (ctx : Item) :
    List String × List (String × PVal) :=
  decisionResolutions db (getOrdinal ctx)
    (decisionSnapshotsOf db (allSnapshotsOf db itemId))

/-- snapshots.py `get_resolved_view`: the per-property cross-source
resolution of an item at a milestone. -/
def get_resolved_view (db : DB) (itemId contextId : ℕ) : Except ℕ ResolvedView :=
  match db.findItem itemId with
  | none => .error 404
  | some item =>
    match validateContext db contextId with
    | .error e => .error e
    | .ok contextItem =>
      if (allSnapshotsOf db itemId).isEmpty then
        .ok { item := item.summary, context := contextItem.summary,
              properties := [], source_count := 0, snapshot_count := 0 }
      else
        match buildResolutions db (decOf db itemId contextItem).1
            (decOf db itemId contextItem).2 (effOf db itemId contextItem)
            (sortedAllProps (effOf db itemId contextItem)) with
        | .error _ => .error 500
        | .ok rs =>
          .ok { item := item.summary, context := contextItem.summary,
                properties := rs, source_count := (effOf db itemId contextItem).length,
                snapshot_count :=
                  (documentSnapshotsOf db (allSnapshotsOf db itemId)).length }

/-! ### Lemmas on the resolved-view stages -/

theorem contains_iff_mem (l : List String) (a : String) :
    l.contains a = true ↔ a ∈ l := by
  simp [List.contains_eq_any_beq]

theorem aGet_isSome_iff {κ α : Type} [DecidableEq κ] (k : κ) (l : List (κ × α)) :
    (aGet k l).isSome = true ↔ k ∈ l.map Prod.fst := by
  induction l with
  | nil => simp [aGet]
  | cons kv t ih =>
    obtain ⟨k2, v⟩ := kv
    by_cases h : k = k2 <;> simp [aGet, h, ih]

theorem aSet_ne_nil {κ α : Type} [DecidableEq κ] (k : κ) (v : α) (l : List (κ × α)) :
    aSet k v l ≠ [] := by
  cases l with
  | nil => simp [aSet]
  | cons kv t =>
    obtain ⟨k2, w⟩ := kv
    by_cases h : k = k2 <;> simp [aSet, h]

theorem mem_foldl_propInsert (ks : List String) (acc : List String) (m : String) :
    (m ∈ ks.foldl (fun a k => if a.contains k then a else a ++ [k]) acc) ↔
      m ∈ acc ∨ m ∈ ks := by
  induction ks generalizing acc with
  | nil => simp
  | cons k t ih =>
    simp only [List.foldl_cons]
    rw [ih]
    by_cases h : acc.contains k
    · rw [if_pos h]
      rw [contains_iff_mem] at h
      simp only [List.mem_cons]
      constructor
      · tauto
      · rintro (h1 | h1 | h1)
        · exact Or.inl h1
        · exact Or.inl (h1 ▸ h)
        · exact Or.inr h1
    · rw [if_neg h]
      simp only [List.mem_append, List.mem_singleton, List.mem_cons]
      tauto

theorem nodup_foldl_propInsert (ks : List String) (acc : List String)
    (h : acc.Nodup) :
    (ks.foldl (fun a k => if a.contains k then a else a ++ [k]) acc).Nodup := by
  induction ks generalizing acc with
  | nil => exact h
  | cons k t ih =>
    simp only [List.foldl_cons]
    by_cases hc : acc.contains k
    · rw [if_pos hc]
      exact ih acc h
    · rw [if_neg hc]
      apply ih
      have hk : k ∉ acc := fun hm => hc ((contains_iff_mem acc k).mpr hm)
      simp [List.nodup_append, h, hk]

theorem mem_propsUnion (eff : List (ℕ × Snapshot)) (acc : List String) (m : String) :
    (m ∈ eff.foldl (fun acc p =>
        (p.2.properties.map Prod.fst).foldl
          (fun a k => if a.contains k then a else a ++ [k]) acc) acc) ↔
      m ∈ acc ∨ ∃ pr ∈ eff, m ∈ pr.2.properties.map Prod.fst := by
  induction eff generalizing acc with
  | nil => simp
  | cons pr t ih =>
    simp only [List.foldl_cons]
    rw [ih, mem_foldl_propInsert]
    simp only [List.mem_cons]
    constructor
    · rintro ((h | h) | ⟨q, hq, hm⟩)
      · exact Or.inl h
      · exact Or.inr ⟨pr, Or.inl rfl, h⟩
      · exact Or.inr ⟨q, Or.inr hq, hm⟩
    · rintro (h | ⟨q, (hq | hq), hm⟩)
      · exact Or.inl (Or.inl h)
      · exact Or.inl (Or.inr (hq ▸ hm))
      · exact Or.inr ⟨q, hq, hm⟩

theorem nodup_propsUnion (eff : List (ℕ × Snapshot)) (acc : List String)
    (h : acc.Nodup) :
    (eff.foldl (fun acc p =>
        (p.2.properties.map Prod.fst).foldl
          (fun a k => if a.contains k then a else a ++ [k]) acc) acc).Nodup := by
  induction eff generalizing acc with
  | nil => exact h
  | cons pr t ih =>
    simp only [List.foldl_cons]
    exact ih _ (nodup_foldl_propInsert _ _ h)

theorem insertSorted_perm (x : String) (l : List String) :
    (insertSorted x l).Perm (x :: l) := by
  induction l with
  | nil => exact List.Perm.refl _
  | cons y t ih =>
    unfold insertSorted
    by_cases h : charListLe x.data y.data = true
    · rw [if_pos h]
    · rw [if_neg h]
      exact (ih.cons y).trans (List.Perm.swap x y t)

theorem sortStrings_perm (l : List String) : (sortStrings l).Perm l := by
  induction l with
  | nil => exact List.Perm.refl _
  | cons x t ih =>
    exact (insertSorted_perm x (sortStrings t)).trans (ih.cons x)

theorem mem_sortedAllProps (eff : List (ℕ × Snapshot)) (m : String) :
    m ∈ sortedAllProps eff ↔ ∃ pr ∈ eff, m ∈ pr.2.properties.map Prod.fst := by
  unfold sortedAllProps
  rw [(sortStrings_perm _).mem_iff, mem_propsUnion]
  simp

theorem nodup_sortedAllProps (eff : List (ℕ × Snapshot)) :
    (sortedAllProps eff).Nodup := by
  unfold sortedAllProps
  exact (sortStrings_perm _).symm.nodup (nodup_propsUnion eff [] List.nodup_nil)

theorem svStep_ne_nil (db : DB) (prop : String) (acc : List (Option String × PVal))
    (p : ℕ × Snapshot) (h : acc ≠ []) : svStep db prop acc p ≠ [] := by
  unfold svStep
  cases hg : aGet prop p.2.properties with
  | none => exact h
  | some v => cases v <;> first | exact h | exact aSet_ne_nil _ _ _


theorem svStep_eq_nil_iff (db : DB) (prop : String)
    (acc : List (Option String × PVal)) (pr : ℕ × Snapshot) :
    svStep db prop acc pr = [] ↔
      acc = [] ∧ ∀ v, aGet prop pr.2.properties = some v → v = PVal.null := by
  unfold svStep
  cases hg : aGet prop pr.2.properties with
  | none => simp
  | some v =>
    cases v with
    | null => simp
    | str s =>
      constructor
      · intro h
        exact absurd h (aSet_ne_nil _ _ _)
      · rintro ⟨_, hall⟩
        exact absurd (hall _ rfl) (by simp)
    | int n =>
      constructor
      · intro h
        exact absurd h (aSet_ne_nil _ _ _)
      · rintro ⟨_, hall⟩
        exact absurd (hall _ rfl) (by simp)
    | dict d =>
      constructor
      · intro h
        exact absurd h (aSet_ne_nil _ _ _)
      · rintro ⟨_, hall⟩
        exact absurd (hall _ rfl) (by simp)

theorem sourceValuesFor_eq_nil_iff (db : DB) (eff : List (ℕ × Snapshot))
    (prop : String) :
    sourceValuesFor db eff prop = [] ↔
      ∀ pr ∈ eff, ∀ v, aGet prop pr.2.properties = some v → v = PVal.null := by
  have main : ∀ (l : List (ℕ × Snapshot)) (acc : List (Option String × PVal)),
      (l.foldl (svStep db prop) acc = [] ↔
        acc = [] ∧ ∀ pr ∈ l, ∀ v, aGet prop pr.2.properties = some v → v = PVal.null) := by
    intro l
    induction l with
    | nil =>
      intro acc
      simp
    | cons pr t ih =>
      intro acc
      simp only [List.foldl_cons]
      rw [ih, svStep_eq_nil_iff]
      constructor
      · rintro ⟨⟨ha, hpr⟩, hrest⟩
        refine ⟨ha, ?_⟩
        intro q hq v hv
        rcases List.mem_cons.mp hq with h | h
        · exact hpr v (h ▸ hv)
        · exact hrest q h v hv
      · rintro ⟨ha, hall⟩
        exact ⟨⟨ha, fun v hv => hall pr (List.mem_cons_self _ _) v hv⟩,
               fun q hq v hv => hall q (List.mem_cons_of_mem _ hq) v hv⟩
  unfold sourceValuesFor
  rw [main]
  simp

theorem resolveProp_nil (dp : List String) (dv : List (String × PVal)) (prop : String) :
    resolveProp dp dv prop [] = .ok none := rfl

theorem resolveProp_cons_ne_ok_none (dp : List String) (dv : List (String × PVal))
    (prop : String) (v0 : Option String × PVal) (rest : List (Option String × PVal)) :
    resolveProp dp dv prop (v0 :: rest) ≠ .ok none := by
  simp only [resolveProp]
  by_cases h1 : dp.contains prop = true
  · rw [if_pos h1]
    simp
  · rw [if_neg h1]
    by_cases h2 : rest.isEmpty = true
    · rw [if_pos h2]
      simp
    · rw [if_neg h2]
      cases ha : allAgree v0.2 (rest.map Prod.snd) prop with
      | none => simp
      | some b => cases b <;> simp

theorem resolveProp_cons_spec (dp : List String) (dv : List (String × PVal))
    (prop : String) (v0 : Option String × PVal) (rest : List (Option String × PVal))
    (pr : PropertyResolution)
    (h : resolveProp dp dv prop (v0 :: rest) = .ok (some pr)) :
    pr.property_name = prop ∧ pr.sources = v0 :: rest ∧
    ((prop ∈ dp ∧ pr.status = "resolved" ∧
        pr.value = some ((aGet prop dv).getD v0.2)) ∨
     (prop ∉ dp ∧ rest = [] ∧ pr.status = "single_source" ∧ pr.value = some v0.2) ∨
     (prop ∉ dp ∧ rest ≠ [] ∧ allAgree v0.2 (rest.map Prod.snd) prop = some true ∧
        pr.status = "agreed" ∧ pr.value = some v0.2) ∨
     (prop ∉ dp ∧ rest ≠ [] ∧ allAgree v0.2 (rest.map Prod.snd) prop = some false ∧
        pr.status = "conflicted" ∧ pr.value = none)) := by
  simp only [resolveProp] at h
  by_cases h1 : dp.contains prop = true
  · rw [if_pos h1] at h
    simp only [Except.ok.injEq, Option.some.injEq] at h
    subst h
    exact ⟨rfl, rfl, Or.inl ⟨(contains_iff_mem dp prop).mp h1, rfl, rfl⟩⟩
  · rw [if_neg h1] at h
    have hnm : prop ∉ dp := fun hm => h1 ((contains_iff_mem dp prop).mpr hm)
    by_cases h2 : rest.isEmpty = true
    · rw [if_pos h2] at h
      simp only [Except.ok.injEq, Option.some.injEq] at h
      subst h
      exact ⟨rfl, rfl, Or.inr (Or.inl ⟨hnm, List.isEmpty_iff.mp h2, rfl, rfl⟩)⟩
    · rw [if_neg h2] at h
      have hne : rest ≠ [] := fun he => h2 (by simp [he])
      cases ha : allAgree v0.2 (rest.map Prod.snd) prop with
      | none =>
        rw [ha] at h
        cases h
      | some b =>
        rw [ha] at h
        cases b
        · dsimp only at h
          simp only [Except.ok.injEq, Option.some.injEq] at h
          subst h
          exact ⟨rfl, rfl, Or.inr (Or.inr (Or.inr ⟨hnm, hne, rfl, rfl, rfl⟩))⟩
        · dsimp only at h
          simp only [Except.ok.injEq, Option.some.injEq] at h
          subst h
          exact ⟨rfl, rfl, Or.inr (Or.inr (Or.inl ⟨hnm, hne, rfl, rfl, rfl⟩))⟩

theorem buildResolutions_spec (db : DB) (dp : List String) (dv : List (String × PVal))
    (eff : List (ℕ × Snapshot)) (props : List String) (rs : List PropertyResolution)
    (p : String) (h : buildResolutions db dp dv eff props = .ok rs)
    (hnd : props.Nodup) :
    (p ∈ props → sourceValuesFor db eff p ≠ [] →
      (rs.filter (fun q => q.property_name == p)).length = 1) ∧
    (p ∉ props → (rs.filter (fun q => q.property_name == p)).length = 0) ∧
    (sourceValuesFor db eff p = [] →
      (rs.filter (fun q => q.property_name == p)).length = 0) ∧
    ∀ q ∈ rs, q.property_name = p →
      resolveProp dp dv p (sourceValuesFor db eff p) = .ok (some q) := by
  induction props generalizing rs with
  | nil =>
    simp only [buildResolutions, Except.ok.injEq] at h
    subst h
    simp
  | cons p1 t ih =>
    simp only [buildResolutions] at h
    cases hr : resolveProp dp dv p1 (sourceValuesFor db eff p1) with
    | error e =>
      rw [hr] at h
      cases h
    | ok r =>
      rw [hr] at h
      cases hb : buildResolutions db dp dv eff t with
      | error e =>
        rw [hb] at h
        cases h
      | ok rs2 =>
        rw [hb] at h
        obtain ⟨ih1, ih0, ihe, ihmem⟩ := ih rs2 hb (List.nodup_cons.mp hnd).2
        have hp1t : p1 ∉ t := (List.nodup_cons.mp hnd).1
        cases r with
        | none =>
          have hsv1 : sourceValuesFor db eff p1 = [] := by
            cases hsv : sourceValuesFor db eff p1 with
            | nil => rfl
            | cons a b =>
              rw [hsv] at hr
              exact absurd hr (resolveProp_cons_ne_ok_none dp dv p1 a b)
          dsimp only at h
          simp only [Except.ok.injEq] at h
          subst h
          refine ⟨?_, ?_, ?_, fun q hq hname => ihmem q hq hname⟩
          · intro hmem hne
            rcases List.mem_cons.mp hmem with rfl | hmem2
            · exact absurd hsv1 hne
            · exact ih1 hmem2 hne
          · intro hnm
            exact ih0 (fun hm => hnm (List.mem_cons_of_mem _ hm))
          · exact ihe
        | some pr =>
          dsimp only at h
          simp only [Except.ok.injEq] at h
          subst h
          have hsv1ne : sourceValuesFor db eff p1 ≠ [] := by
            intro he
            rw [he, resolveProp_nil] at hr
            cases hr
          have hname1 : pr.property_name = p1 := by
            cases hsv : sourceValuesFor db eff p1 with
            | nil => exact absurd hsv hsv1ne
            | cons v0 r0 =>
              rw [hsv] at hr
              exact (resolveProp_cons_spec dp dv p1 v0 r0 pr hr).1
          have hfilter : ∀ hp : p = p1,
              (List.filter (fun q => q.property_name == p) (pr :: rs2)).length
                = 1 + (rs2.filter (fun q => q.property_name == p)).length := by
            intro hp
            subst hp
            rw [List.filter_cons, if_pos (by rw [hname1]; simp)]
            simp [Nat.add_comm]
          have hfilterne : ∀ _hp : p ≠ p1,
              (List.filter (fun q => q.property_name == p) (pr :: rs2)).length
                = (rs2.filter (fun q => q.property_name == p)).length := by
            intro hp
            rw [List.filter_cons,
               if_neg (by rw [hname1]; simp only [beq_iff_eq]; exact Ne.symm hp)]
          refine ⟨?_, ?_, ?_, ?_⟩
          · intro hmem hne
            by_cases hpp : p = p1
            · rw [hfilter hpp]
              have : (rs2.filter (fun q => q.property_name == p)).length = 0 :=
                ih0 (hpp ▸ hp1t)
              rw [this]
            · rcases List.mem_cons.mp hmem with h1 | h1
              · exact absurd h1 hpp
              · rw [hfilterne hpp]
                exact ih1 h1 hne
          · intro hnm
            have hpp : p ≠ p1 := fun he => hnm (he ▸ List.mem_cons_self _ _)
            rw [hfilterne hpp]
            exact ih0 (fun hm => hnm (List.mem_cons_of_mem _ hm))
          · intro hsve
            have hpp : p ≠ p1 := fun he => hsv1ne (he ▸ hsve)
            rw [hfilterne hpp]
            exact ihe hsve
          · intro q hq hname
            rcases List.mem_cons.mp hq with rfl | hq2
            · have : p = p1 := by rw [← hname, hname1]
              subst this
              exact hr
            · exact ihmem q hq2 hname

/-- C5 (amended): in a resolved view, every property name appearing with a
non-null value in at least one effective document-source snapshot receives
exactly one resolution entry, and its status is exactly one of resolved,
single_source, agreed, conflicted: resolved when a decision at or before the
context addresses the property (with the decision resolved value when one is
recorded, else the first source value), single_source when exactly one
document source has a non-null value, agreed when every further present
value values_match the first, and conflicted otherwise with the value unset
and all source-to-value pairs retained; a property appearing only with null
values receives no entry. -/
theorem resolved_view_exactly_one_status
    (db : DB) (itemId ctxId : ℕ) (rv : ResolvedView) (ctx : Item) (p : String)
    (hval : validateContext db ctxId = .ok ctx)
    (hok : get_resolved_view db itemId ctxId = .ok rv) :
    (sourceValuesFor db (effOf db itemId ctx) p ≠ [] ↔
      ∃ pr ∈ effOf db itemId ctx, ∃ v, aGet p pr.2.properties = some v ∧ v ≠ PVal.null) ∧
    (∀ v0 rest, sourceValuesFor db (effOf db itemId ctx) p = v0 :: rest →
      (rv.properties.filter (fun q => q.property_name == p)).length = 1 ∧
      ∀ q ∈ rv.properties, q.property_name = p →
        q.sources = v0 :: rest ∧
        ((p ∈ (decOf db itemId ctx).1 ∧ q.status = "resolved" ∧
            q.value = some ((aGet p (decOf db itemId ctx).2).getD v0.2)) ∨
         (p ∉ (decOf db itemId ctx).1 ∧ rest = [] ∧ q.status = "single_source" ∧
            q.value = some v0.2) ∨
         (p ∉ (decOf db itemId ctx).1 ∧ rest ≠ [] ∧
            allAgree v0.2 (rest.map Prod.snd) p = some true ∧
            q.status = "agreed" ∧ q.value = some v0.2) ∨
         (p ∉ (decOf db itemId ctx).1 ∧ rest ≠ [] ∧
            allAgree v0.2 (rest.map Prod.snd) p = some false ∧
            q.status = "conflicted" ∧ q.value = none))) ∧
    (sourceValuesFor db (effOf db itemId ctx) p = [] →
      rv.properties.filter (fun q => q.property_name == p) = []) := by
  have hiff : sourceValuesFor db (effOf db itemId ctx) p ≠ [] ↔
      ∃ pr ∈ effOf db itemId ctx, ∃ v, aGet p pr.2.properties = some v ∧ v ≠ PVal.null := by
    rw [Ne, sourceValuesFor_eq_nil_iff]
    push_neg
    rfl
  unfold get_resolved_view at hok
  cases hitem : db.findItem itemId with
  | none =>
    rw [hitem] at hok
    cases hok
  | some item =>
    rw [hitem, hval] at hok
    dsimp only at hok
    by_cases hemp : (allSnapshotsOf db itemId).isEmpty = true
    · rw [if_pos hemp] at hok
      simp only [Except.ok.injEq] at hok
      subst hok
      have heff : effOf db itemId ctx = [] := by
        unfold effOf
        rw [List.isEmpty_iff.mp hemp]
        rfl
      refine ⟨hiff, ?_, ?_⟩
      · intro v0 rest hsv
        rw [heff] at hsv
        simp [sourceValuesFor] at hsv
      · intro _
        rfl
    · rw [if_neg hemp] at hok
      cases hb : buildResolutions db (decOf db itemId ctx).1 (decOf db itemId ctx).2
          (effOf db itemId ctx) (sortedAllProps (effOf db itemId ctx)) with
      | error e =>
        rw [hb] at hok
        cases hok
      | ok rs =>
        rw [hb] at hok
        simp only [Except.ok.injEq] at hok
        subst hok
        obtain ⟨bs1, bs0, bse, bsmem⟩ :=
          buildResolutions_spec db (decOf db itemId ctx).1 (decOf db itemId ctx).2
            (effOf db itemId ctx) (sortedAllProps (effOf db itemId ctx)) rs p hb
            (nodup_sortedAllProps _)
        refine ⟨hiff, ?_, ?_⟩
        · intro v0 rest hsv
          have hne : sourceValuesFor db (effOf db itemId ctx) p ≠ [] := by
            rw [hsv]
            simp
          have hpmem : p ∈ sortedAllProps (effOf db itemId ctx) := by
            rw [mem_sortedAllProps]
            obtain ⟨pr, hpr, v, hv, _⟩ := hiff.mp hne
            exact ⟨pr, hpr, (aGet_isSome_iff p pr.2.properties).mp (by rw [hv]; rfl)⟩
          refine ⟨bs1 hpmem hne, ?_⟩
          intro q hq hname
          have hrp := bsmem q hq hname
          rw [hsv] at hrp
          obtain ⟨_, hsrc, hdisj⟩ := resolveProp_cons_spec _ _ _ _ _ _ hrp
          exact ⟨hsrc, hdisj⟩
        · intro hsv
          exact List.length_eq_zero.mp (bse hsv)

/-! ### Conflict-detection source resolution (import_service.py) -/

/-- import_service.py `_get_effective_snapshots_from_other_sources`: the
effective snapshot of every other source for an item — skipping the
importing source and sources of a hardcoded workflow type, applying the
ordinal cutoff with carry-forward per source.  Ordinals pass through the
`int()` conversions of the code: an unconvertible snapshot ordinal skips the
snapshot; an unconvertible kept ordinal counts as 0. -/
def getEffectiveSnapshotsFromOtherSources (db : DB) (itemId currentSourceId : ℕ)
    (contextOrdinal : ℤ) : List (ℕ × Snapshot) :=
  (db.snapshots.filter (fun s => s.item_id == itemId)).foldl (fun eff snap =>
    if snap.source_id == currentSourceId then eff
    else
      match db.findItem snap.source_id with
      | none => eff
      | some src =>
        if workflow_types.contains src.item_type then eff
        else
          match db.findItem snap.context_id with
          | none => eff
          | some ctx =>
            match pyInt ((aGet "ordinal" ctx.properties).getD (.int 0)) with
            | none => eff
            | some snapOrdinal =>
              if snapOrdinal > contextOrdinal then eff
              else
                match aGet snap.source_id eff with
                | none => aSet snap.source_id snap eff
                | some existing =>
                  let existingOrd : ℤ :=
                    match db.findItem existing.context_id with
                    | some ec => (pyInt ((aGet "ordinal" ec.properties).getD (.int 0))).getD 0
                    | none => 0
                  if snapOrdinal > existingOrd then aSet snap.source_id snap eff
                  else eff) []

/-- Store for the C6 failing input: a snapshot whose source is an
import_batch item, a type the registry flags as excluded from conflict
detection. -/
def dbImportBatchSource : DB :=
  { items :=
      [ ⟨1, "door", some "D1", []⟩
      , ⟨2, "schedule", some "S1", []⟩
      , ⟨4, "milestone", some "A", [("ordinal", .int 100)]⟩
      , ⟨5, "import_batch", some "IB", []⟩ ]
  , snapshots :=
      [ ⟨6, 1, 4, 2, [("finish", .str "wood")], 0⟩
      , ⟨7, 1, 4, 5, [("finish", .str "plastic")], 1⟩ ]
  , connections := []
  , nextId := 8 }

/-- C6: the registry flags import_batch as excluded from conflicts, but the
hardcoded workflow-type set that the resolved view and the conflict detector
actually consult omits it: an import_batch-sourced snapshot enters the
resolved view document-source set (making the property conflicted) and the
other-source comparison set of conflict detection. -/
theorem import_batch_participates_in_conflicts :
    "import_batch" ∈ get_conflict_excluded_types ∧
    workflow_types.contains "import_batch" = false ∧
    (get_resolved_view dbImportBatchSource 1 4).map
        (fun rv => rv.properties.map
          (fun q => (q.property_name, q.status, q.sources.map Prod.fst)))
      = .ok [("finish", "conflicted", [some "S1", some "IB"])] ∧
    (getEffectiveSnapshotsFromOtherSources dbImportBatchSource 1 2 100).map Prod.fst
      = [5] :=
  ⟨by decide, rfl, rfl, rfl⟩

/-- Store for the C5 counterexample: the schedule asserts a null value for
the ghost property, so ghost appears in an effective document snapshot yet
receives no status. -/
def dbNullProp : DB :=
  { items :=
      [ ⟨1, "door", some "D1", []⟩
      , ⟨2, "schedule", some "S1", []⟩
      , ⟨4, "milestone", some "A", [("ordinal", .int 100)]⟩ ]
  , snapshots := [ ⟨5, 1, 4, 2, [("finish", .str "wood"), ("ghost", .null)], 0⟩ ]
  , connections := []
  , nextId := 6 }

/-- C5 (counterexample): the property ghost appears in an effective
document-source snapshot of the store, but the resolved view assigns it no
status at all — only finish receives an entry — refuting the claim that
every property appearing in an effective snapshot receives exactly one
status. -/
theorem resolved_view_null_prop_no_status :
    (get_resolved_view dbNullProp 1 4).map
        (fun rv => rv.properties.map (fun q => q.property_name)) = .ok ["finish"] ∧
    "ghost" ∈ sortedAllProps
      (effOf dbNullProp 1 ⟨4, "milestone", some "A", [("ordinal", PVal.int 100)]⟩) :=
  ⟨rfl, by decide⟩

/-- Store for spec scenario 2 and the C5 witness: two document sources
disagree on the finish property at one milestone. -/
def dbScenario2 : DB :=
  { items :=
      [ ⟨1, "door", some "X", []⟩
      , ⟨2, "schedule", some "S1", []⟩
      , ⟨3, "specification", some "S2", []⟩
      , ⟨4, "milestone", some "A", [("ordinal", .int 100)]⟩ ]
  , snapshots :=
      [ ⟨5, 1, 4, 2, [("finish", .str "wood")], 0⟩
      , ⟨6, 1, 4, 3, [("finish", .str "metal")], 1⟩ ]
  , connections := []
  , nextId := 7 }

/-- The ordinal-100 milestone of the witness stores. -/
def ctxA : Item := ⟨4, "milestone", some "A", [("ordinal", PVal.int 100)]⟩

/-- The resolved view computed for `dbScenario2`. -/
def rvScenario2 : ResolvedView :=
  { item := ⟨1, "door", some "X"⟩
    context := ⟨4, "milestone", some "A"⟩
    properties :=
      [ { property_name := "finish", status := "conflicted", value := none,
          sources := [(some "S1", PVal.str "wood"), (some "S2", PVal.str "metal")] } ]
    source_count := 2
    snapshot_count := 2 }

/-- Witness for the C5 theorem at spec scenario 2: finish, asserted with
non-null values by two disagreeing sources, receives exactly one entry with
the conflicted status. -/
theorem resolved_view_exactly_one_status_witness :
    (sourceValuesFor dbScenario2 (effOf dbScenario2 1 ctxA) "finish" ≠ [] ↔
      ∃ pr ∈ effOf dbScenario2 1 ctxA, ∃ v,
        aGet "finish" pr.2.properties = some v ∧ v ≠ PVal.null) ∧
    (∀ v0 rest,
      sourceValuesFor dbScenario2 (effOf dbScenario2 1 ctxA) "finish" = v0 :: rest →
      (rvScenario2.properties.filter (fun q => q.property_name == "finish")).length = 1 ∧
      ∀ q ∈ rvScenario2.properties, q.property_name = "finish" →
        q.sources = v0 :: rest ∧
        (("finish" ∈ (decOf dbScenario2 1 ctxA).1 ∧ q.status = "resolved" ∧
            q.value = some ((aGet "finish" (decOf dbScenario2 1 ctxA).2).getD v0.2)) ∨
         ("finish" ∉ (decOf dbScenario2 1 ctxA).1 ∧ rest = [] ∧
            q.status = "single_source" ∧ q.value = some v0.2) ∨
         ("finish" ∉ (decOf dbScenario2 1 ctxA).1 ∧ rest ≠ [] ∧
            allAgree v0.2 (rest.map Prod.snd) "finish" = some true ∧
            q.status = "agreed" ∧ q.value = some v0.2) ∨
         ("finish" ∉ (decOf dbScenario2 1 ctxA).1 ∧ rest ≠ [] ∧
            allAgree v0.2 (rest.map Prod.snd) "finish" = some false ∧
            q.status = "conflicted" ∧ q.value = none))) ∧
    (sourceValuesFor dbScenario2 (effOf dbScenario2 1 ctxA) "finish" = [] →
      rvScenario2.properties.filter (fun q => q.property_name == "finish") = []) :=
  resolved_view_exactly_one_status dbScenario2 1 4 rvScenario2 ctxA "finish" rfl rfl

/-! ### Temporal comparison (comparison.py) -/

/-- comparison.py `_get_effective_values_at_context_all_sources`: the
effective snapshot of every source for an item at a context (carry-forward
per source).  The per-source selection — first-occurrence source order, and
a kept snapshot replaced only on a strictly greater ordinal — is the same
accumulation the resolved view performs, so the same fold is reused; the
errors model the 404 raised on a missing context item. -/
def getEffectiveValuesAllSources (db : DB) (itemId ctxId : ℕ) :
    Except String (List (ℕ × Snapshot)) :=
  match db.findItem ctxId with
  | none => .error "Context not found"
  | some target =>
    if (allSnapshotsOf db itemId).isEmpty then .ok []
    else if (allSnapshotsOf db itemId).all
        (fun s => (db.findItem s.context_id).isSome) then
      .ok (resolvedEffectiveBySource db (getOrdinal target) (allSnapshotsOf db itemId))
    else .error "Context not found"

structure PropertyChange where
  property_name : String
  old_value : Option PVal
  new_value : Option PVal
  from_context : ℕ
  to_context : ℕ
  source : Option ℕ
deriving Repr

/-- Python `!=` on two optional property values. -/
def pvalOptBeq : Option PVal → Option PVal → Bool
  | none, none => true
  | some a, some b => PVal.beq a b
  | _, _ => false

/-- `set(old) | set(new)` as an insertion-ordered deduplication (the order
is normalized by the sort that follows). -/
def dedupKeys (ks : List String) : List String :=
  ks.foldl (fun a k => if a.contains k then a else a ++ [k]) []

/-- The key loop of `_build_property_changes`: for each property name, a
change entry when the values differ and do not match under normalization;
dict.get reads a stored null as an absent value, and values_match is only
consulted when both sides are present; `.error` models a raised
InvalidOperation. -/
def bpcGo (oldProps newProps : List (String × PVal)) (fromCtx toCtx : ℕ)
    (srcId : Option ℕ) : List String → Except Unit (List PropertyChange)
  | [] => .ok []
  | p :: t =>
    let oldVal := pyGet p oldProps
    let newVal := pyGet p newProps
    let keep : Except Unit Bool :=
      if pvalOptBeq oldVal newVal then .ok false
      else
        match oldVal, newVal with
        | some ov, some nv =>
          match values_match (some ov.pyStr) (some nv.pyStr) p with
          | none => .error ()
          | some true => .ok false
          | some false => .ok true
        | _, _ => .ok true
    match keep with
    | .error e => .error e
    | .ok b =>
      match bpcGo oldProps newProps fromCtx toCtx srcId t with
      | .error e => .error e
      | .ok rest =>
        .ok (if b then
          { property_name := p, old_value := oldVal, new_value := newVal,
            from_context := fromCtx, to_context := toCtx, source := srcId } :: rest
        else rest)

/-- comparison.py `_build_property_changes`. -/
def buildPropertyChanges (oldProps newProps : List (String × PVal))
    (fromCtx toCtx : ℕ) (srcId : Option ℕ) : Except Unit (List PropertyChange) :=
  bpcGo oldProps newProps fromCtx toCtx srcId
    (sortStrings (dedupKeys (oldProps.map Prod.fst ++ newProps.map Prod.fst)))

structure ItemComparison where
  item_id : ℕ
  identifier : Option String
  item_type : String
  category : String
  changes : List PropertyChange
deriving Repr

structure ComparisonSummary where
  added : ℕ
  removed : ℕ
  modified : ℕ
  unchanged : ℕ
  total : ℕ
deriving Repr, DecidableEq

/-- The per-item step of `_categorize_items_with_source_filter`: `none`
when the item is skipped (missing, or no effective snapshot on either
side).  Error 404 models the context 404s of the resolver; 500 a raised
InvalidOperation. -/
def categorizeSFItem (db : DB) (fromCtxId toCtxId srcId itemId : ℕ) :
    Except ℕ (Option ItemComparison) :=
  match db.findItem itemId with
  | none => .ok none
  | some item =>
    match getEffectiveSnapshotAtContext db itemId fromCtxId (some srcId) with
    | .error _ => .error 404
    | .ok fromSnap =>
      match getEffectiveSnapshotAtContext db itemId toCtxId (some srcId) with
      | .error _ => .error 404
      | .ok toSnap =>
        match fromSnap, toSnap with
        | none, none => .ok none
        | none, some _ =>
          .ok (some { item_id := itemId, identifier := item.identifier,
                      item_type := item.item_type, category := "added", changes := [] })
        | some _, none =>
          .ok (some { item_id := itemId, identifier := item.identifier,
                      item_type := item.item_type, category := "removed", changes := [] })
        | some fs, some ts =>
          match buildPropertyChanges fs.properties ts.properties fromCtxId toCtxId
              (some srcId) with
          | .error _ => .error 500
          | .ok changes =>
            .ok (some { item_id := itemId, identifier := item.identifier,
                        item_type := item.item_type,
                        category := if changes.isEmpty then "unchanged" else "modified",
                        changes := changes })

/-- The merge of `_categorize_items_with_effective_values`: the property
maps of the effective snapshots folded left with dict update, so a later
processed source wins a key collision. -/
def mergeProps (eff : List (ℕ × Snapshot)) : List (String × PVal) :=
  eff.foldl (fun acc p => aUpdate acc p.2.properties) []

/-- The per-item step of `_categorize_items_with_effective_values`. -/
def categorizeEVItem (db : DB) (fromCtxId toCtxId itemId : ℕ) :
    Except ℕ (Option ItemComparison) :=
  match db.findItem itemId with
  | none => .ok none
  | some item =>
    match getEffectiveValuesAllSources db itemId fromCtxId with
    | .error _ => .error 404
    | .ok fromEff =>
      match getEffectiveValuesAllSources db itemId toCtxId with
      | .error _ => .error 404
      | .ok toEff =>
        match fromEff.isEmpty, toEff.isEmpty with
        | true, true => .ok none
        | true, false =>
          .ok (some { item_id := itemId, identifier := item.identifier,
                      item_type := item.item_type, category := "added", changes := [] })
        | false, true =>
          .ok (some { item_id := itemId, identifier := item.identifier,
                      item_type := item.item_type, category := "removed", changes := [] })
        | false, false =>
          match buildPropertyChanges (mergeProps fromEff) (mergeProps toEff)
              fromCtxId toCtxId none with
          | .error _ => .error 500
          | .ok changes =>
            .ok (some { item_id := itemId, identifier := item.identifier,
                        item_type := item.item_type,
                        category := if changes.isEmpty then "unchanged" else "modified",
                        changes := changes })

/-- The item loop shared by both categorizers, accumulating the comparison
list and the four counters in order. -/
def categorizeGo (step : ℕ → Except ℕ (Option ItemComparison)) :
    List ℕ → Except ℕ (List ItemComparison × ℕ × ℕ × ℕ × ℕ)
  | [] => .ok ([], 0, 0, 0, 0)
  | itemId :: t =>
    match step itemId with
    | .error e => .error e
    | .ok headRes =>
      match categorizeGo step t with
      | .error e => .error e
      | .ok (comps, a, r, m, u) =>
        match headRes with
        | none => .ok (comps, a, r, m, u)
        | some ic =>
          .ok (ic :: comps,
               a + (if ic.category = "added" then 1 else 0),
               r + (if ic.category = "removed" then 1 else 0),
               m + (if ic.category = "modified" then 1 else 0),
               u + (if ic.category = "unchanged" then 1 else 0))

/-- comparison.py `_categorize_items_with_source_filter`: the comparison
list and the summary whose total is the sum of the four counters. -/
def categorizeWithSourceFilter (db : DB) (itemIds : List ℕ)
    (fromCtxId toCtxId srcId : ℕ) :
    Except ℕ (List ItemComparison × ComparisonSummary) :=
  match categorizeGo (categorizeSFItem db fromCtxId toCtxId srcId) itemIds with
  | .error e => .error e
  | .ok (comps, a, r, m, u) =>
    .ok (comps, { added := a, removed := r, modified := m, unchanged := u,
                  total := a + r + m + u })

/-- comparison.py `_categorize_items_with_effective_values`. -/
def categorizeWithEffectiveValues (db : DB) (itemIds : List ℕ)
    (fromCtxId toCtxId : ℕ) :
    Except ℕ (List ItemComparison × ComparisonSummary) :=
  match categorizeGo (categorizeEVItem db fromCtxId toCtxId) itemIds with
  | .error e => .error e
  | .ok (comps, a, r, m, u) =>
    .ok (comps, { added := a, removed := r, modified := m, unchanged := u,
                  total := a + r + m + u })

/-- comparison.py `_get_children_of_parent`. -/
def childrenOfParent (db : DB) (parentId : ℕ) : List ℕ :=
  (db.connections.filter (fun c => c.source_item_id == parentId)).map
    (fun c => c.target_item_id)

structure ComparisonRequest where
  item_ids : Option (List ℕ)
  parent_item_id : Option ℕ
  from_context_id : ℕ
  to_context_id : ℕ
  source_filter : Option ℕ
  limit : ℕ
  offset : ℕ
deriving Repr

structure ComparisonResult where
  from_context : ItemSummary
  to_context : ItemSummary
  items : List ItemComparison
  summary : ComparisonSummary
  limit : ℕ
  offset : ℕ
deriving Repr

/-- The population a comparison call classifies: the explicit id list, or
the children of the parent item. -/
def comparePopulation (db : DB) (req : ComparisonRequest) : List ℕ :=
  match req.item_ids, req.parent_item_id with
  | some ids, _ => ids
  | none, some pid => childrenOfParent db pid
  | none, none => []

/-- comparison.py `compare_snapshots`: mode validation, context validation,
population resolution, categorization and the final pagination slice. -/
def compare_snapshots (db : DB) (req : ComparisonRequest) :
    Except ℕ ComparisonResult :=
  if (req.item_ids.isNone && req.parent_item_id.isNone) ||
     (req.item_ids.isSome && req.parent_item_id.isSome) then .error 400
  else
    match validateContext db req.from_context_id with
    | .error e => .error e
    | .ok fromCtx =>
      match validateContext db req.to_context_id with
      | .error e => .error e
      | .ok toCtx =>
        if (comparePopulation db req).isEmpty then
          .ok { from_context := fromCtx.summary, to_context := toCtx.summary,
                items := [], summary := ⟨0, 0, 0, 0, 0⟩,
                limit := req.limit, offset := req.offset }
        else
          match req.source_filter with
          | some sf =>
            match db.findItem sf with
            | none => .error 404
            | some _ =>
              match categorizeWithSourceFilter db (comparePopulation db req)
                  req.from_context_id req.to_context_id sf with
              | .error e => .error e
              | .ok (comps, summary) =>
                .ok { from_context := fromCtx.summary, to_context := toCtx.summary,
                      items := (comps.drop req.offset).take req.limit,
                      summary := summary, limit := req.limit, offset := req.offset }
          | none =>
            match categorizeWithEffectiveValues db (comparePopulation db req)
                req.from_context_id req.to_context_id with
            | .error e => .error e
            | .ok (comps, summary) =>
              .ok { from_context := fromCtx.summary, to_context := toCtx.summary,
                    items := (comps.drop req.offset).take req.limit,
                    summary := summary, limit := req.limit, offset := req.offset }

/-! ### Lemmas on the comparison loop -/

/-- Whether the categorization step keeps an item. -/
def keptBy (step : ℕ → Except ℕ (Option ItemComparison)) (i : ℕ) : Bool :=
  match step i with
  | .ok (some _) => true
  | _ => false

/-- An item contributes to a source-filtered comparison exactly when it
exists and the source has an effective snapshot for it on at least one
side. -/
def hasEffectiveSide (db : DB) (fromCtxId toCtxId srcId itemId : ℕ) : Bool :=
  (db.findItem itemId).isSome &&
  (match getEffectiveSnapshotAtContext db itemId fromCtxId (some srcId),
         getEffectiveSnapshotAtContext db itemId toCtxId (some srcId) with
   | .ok fs, .ok ts => fs.isSome || ts.isSome
   | _, _ => false)

/-- An item contributes to an effective-values comparison exactly when it
exists and some source has an effective snapshot for it on at least one
side. -/
def hasEffectiveSideAll (db : DB) (fromCtxId toCtxId itemId : ℕ) : Bool :=
  (db.findItem itemId).isSome &&
  (match getEffectiveValuesAllSources db itemId fromCtxId,
         getEffectiveValuesAllSources db itemId toCtxId with
   | .ok fe, .ok te => !fe.isEmpty || !te.isEmpty
   | _, _ => false)

theorem categorizeGo_spec (step : ℕ → Except ℕ (Option ItemComparison))
    (hcat : ∀ i ic, step i = .ok (some ic) →
      ic.category = "added" ∨ ic.category = "removed" ∨
      ic.category = "modified" ∨ ic.category = "unchanged")
    (ids : List ℕ) (comps : List ItemComparison) (a r m u : ℕ)
    (h : categorizeGo step ids = .ok (comps, a, r, m, u)) :
    a + r + m + u = comps.length ∧
    comps.length = (ids.filter (keptBy step)).length ∧
    ∀ i ∈ ids, ∃ x, step i = .ok x := by
  induction ids generalizing comps a r m u with
  | nil =>
    simp only [categorizeGo, Except.ok.injEq, Prod.mk.injEq] at h
    obtain ⟨h1, h2, h3, h4, h5⟩ := h
    subst h1; subst h2; subst h3; subst h4; subst h5
    simp
  | cons i t ih =>
    simp only [categorizeGo] at h
    cases hs : step i with
    | error e =>
      rw [hs] at h
      cases h
    | ok headRes =>
      rw [hs] at h
      cases hgo : categorizeGo step t with
      | error e =>
        rw [hgo] at h
        cases h
      | ok res =>
        obtain ⟨comps2, a2, r2, m2, u2⟩ := res
        rw [hgo] at h
        obtain ⟨ih1, ih2, ih3⟩ := ih comps2 a2 r2 m2 u2 hgo
        cases headRes with
        | none =>
          dsimp only at h
          simp only [Except.ok.injEq, Prod.mk.injEq] at h
          obtain ⟨h1, h2, h3, h4, h5⟩ := h
          subst h1; subst h2; subst h3; subst h4; subst h5
          have hk : keptBy step i = false := by
            unfold keptBy
            rw [hs]
          refine ⟨ih1, ?_, ?_⟩
          · rw [List.filter_cons, if_neg (by rw [hk]; exact Bool.false_ne_true)]
            exact ih2
          · intro j hj
            rcases List.mem_cons.mp hj with rfl | hj2
            · exact ⟨none, hs⟩
            · exact ih3 j hj2
        | some ic =>
          dsimp only at h
          simp only [Except.ok.injEq, Prod.mk.injEq] at h
          obtain ⟨h1, h2, h3, h4, h5⟩ := h
          subst h1; subst h2; subst h3; subst h4; subst h5
          have hk : keptBy step i = true := by
            unfold keptBy
            rw [hs]
          constructor
          · rcases hcat i ic hs with hc | hc | hc | hc <;>
              simp [hc, List.length_cons] <;> omega
          refine ⟨?_, ?_⟩
          · rw [List.filter_cons, if_pos (by rw [hk])]
            simp only [List.length_cons, ih2]
          · intro j hj
            rcases List.mem_cons.mp hj with rfl | hj2
            · exact ⟨some ic, hs⟩
            · exact ih3 j hj2

theorem categorizeSFItem_cases (db : DB) (fromCtxId toCtxId srcId i : ℕ) :
    (categorizeSFItem db fromCtxId toCtxId srcId i = .ok none ∧
      hasEffectiveSide db fromCtxId toCtxId srcId i = false) ∨
    (∃ ic, categorizeSFItem db fromCtxId toCtxId srcId i = .ok (some ic) ∧
      hasEffectiveSide db fromCtxId toCtxId srcId i = true ∧
      (ic.category = "added" ∨ ic.category = "removed" ∨
       ic.category = "modified" ∨ ic.category = "unchanged")) ∨
    (∃ e, categorizeSFItem db fromCtxId toCtxId srcId i = .error e) := by
  unfold categorizeSFItem hasEffectiveSide
  cases hfi : db.findItem i with
  | none => exact Or.inl ⟨rfl, rfl⟩
  | some item =>
    cases hf : getEffectiveSnapshotAtContext db i fromCtxId (some srcId) with
    | error e => exact Or.inr (Or.inr ⟨404, rfl⟩)
    | ok fs =>
      cases ht : getEffectiveSnapshotAtContext db i toCtxId (some srcId) with
      | error e => exact Or.inr (Or.inr ⟨404, rfl⟩)
      | ok ts =>
        cases fs with
        | none =>
          cases ts with
          | none => exact Or.inl ⟨rfl, rfl⟩
          | some tsnap => exact Or.inr (Or.inl ⟨_, rfl, rfl, Or.inl rfl⟩)
        | some fsnap =>
          cases ts with
          | none => exact Or.inr (Or.inl ⟨_, rfl, rfl, Or.inr (Or.inl rfl)⟩)
          | some tsnap =>
            dsimp only
            cases hb : buildPropertyChanges fsnap.properties tsnap.properties
                fromCtxId toCtxId (some srcId) with
            | error e => exact Or.inr (Or.inr ⟨500, rfl⟩)
            | ok changes =>
              by_cases hc : changes.isEmpty = true
              · refine Or.inr (Or.inl ⟨_, rfl, rfl, Or.inr (Or.inr (Or.inr ?_))⟩)
                simp [hc]
              · refine Or.inr (Or.inl ⟨_, rfl, rfl, Or.inr (Or.inr (Or.inl ?_))⟩)
                simp [hc]

theorem categorizeEVItem_cases (db : DB) (fromCtxId toCtxId i : ℕ) :
    (categorizeEVItem db fromCtxId toCtxId i = .ok none ∧
      hasEffectiveSideAll db fromCtxId toCtxId i = false) ∨
    (∃ ic, categorizeEVItem db fromCtxId toCtxId i = .ok (some ic) ∧
      hasEffectiveSideAll db fromCtxId toCtxId i = true ∧
      (ic.category = "added" ∨ ic.category = "removed" ∨
       ic.category = "modified" ∨ ic.category = "unchanged")) ∨
    (∃ e, categorizeEVItem db fromCtxId toCtxId i = .error e) := by
  unfold categorizeEVItem hasEffectiveSideAll
  cases hfi : db.findItem i with
  | none => exact Or.inl ⟨rfl, rfl⟩
  | some item =>
    cases hf : getEffectiveValuesAllSources db i fromCtxId with
    | error e => exact Or.inr (Or.inr ⟨404, rfl⟩)
    | ok fe =>
      cases ht : getEffectiveValuesAllSources db i toCtxId with
      | error e => exact Or.inr (Or.inr ⟨404, rfl⟩)
      | ok te =>
        dsimp only
        cases hfe : fe.isEmpty with
        | true =>
          cases hte : te.isEmpty with
          | true => exact Or.inl ⟨rfl, rfl⟩
          | false => exact Or.inr (Or.inl ⟨_, rfl, rfl, Or.inl rfl⟩)
        | false =>
          cases hte : te.isEmpty with
          | true => exact Or.inr (Or.inl ⟨_, rfl, rfl, Or.inr (Or.inl rfl)⟩)
          | false =>
            dsimp only
            cases hb : buildPropertyChanges (mergeProps fe) (mergeProps te)
                fromCtxId toCtxId none with
            | error e => exact Or.inr (Or.inr ⟨500, rfl⟩)
            | ok changes =>
              by_cases hc : changes.isEmpty = true
              · refine Or.inr (Or.inl ⟨_, rfl, rfl, Or.inr (Or.inr (Or.inr ?_))⟩)
                simp [hc]
              · refine Or.inr (Or.inl ⟨_, rfl, rfl, Or.inr (Or.inr (Or.inl ?_))⟩)
                simp [hc]

theorem categorizeSFItem_kept (db : DB) (fromCtxId toCtxId srcId i : ℕ)
    (x : Option ItemComparison)
    (h : categorizeSFItem db fromCtxId toCtxId srcId i = .ok x) :
    keptBy (categorizeSFItem db fromCtxId toCtxId srcId) i
      = hasEffectiveSide db fromCtxId toCtxId srcId i := by
  rcases categorizeSFItem_cases db fromCtxId toCtxId srcId i with
    ⟨heq, hes⟩ | ⟨ic, heq, hes, _⟩ | ⟨e, heq⟩
  · unfold keptBy
    rw [heq, hes]
  · unfold keptBy
    rw [heq, hes]
  · rw [heq] at h
    cases h

theorem categorizeEVItem_kept (db : DB) (fromCtxId toCtxId i : ℕ)
    (x : Option ItemComparison)
    (h : categorizeEVItem db fromCtxId toCtxId i = .ok x) :
    keptBy (categorizeEVItem db fromCtxId toCtxId) i
      = hasEffectiveSideAll db fromCtxId toCtxId i := by
  rcases categorizeEVItem_cases db fromCtxId toCtxId i with
    ⟨heq, hes⟩ | ⟨ic, heq, hes, _⟩ | ⟨e, heq⟩
  · unfold keptBy
    rw [heq, hes]
  · unfold keptBy
    rw [heq, hes]
  · rw [heq] at h
    cases h

theorem categorizeSFItem_cat (db : DB) (fromCtxId toCtxId srcId i : ℕ)
    (ic : ItemComparison)
    (h : categorizeSFItem db fromCtxId toCtxId srcId i = .ok (some ic)) :
    ic.category = "added" ∨ ic.category = "removed" ∨
    ic.category = "modified" ∨ ic.category = "unchanged" := by
  rcases categorizeSFItem_cases db fromCtxId toCtxId srcId i with
    ⟨heq, _⟩ | ⟨ic2, heq, _, hcat⟩ | ⟨e, heq⟩
  · rw [heq] at h
    simp at h
  · rw [heq] at h
    simp only [Except.ok.injEq, Option.some.injEq] at h
    subst h
    exact hcat
  · rw [heq] at h
    cases h

theorem categorizeEVItem_cat (db : DB) (fromCtxId toCtxId i : ℕ)
    (ic : ItemComparison)
    (h : categorizeEVItem db fromCtxId toCtxId i = .ok (some ic)) :
    ic.category = "added" ∨ ic.category = "removed" ∨
    ic.category = "modified" ∨ ic.category = "unchanged" := by
  rcases categorizeEVItem_cases db fromCtxId toCtxId i with
    ⟨heq, _⟩ | ⟨ic2, heq, _, hcat⟩ | ⟨e, heq⟩
  · rw [heq] at h
    simp at h
  · rw [heq] at h
    simp only [Except.ok.injEq, Option.some.injEq] at h
    subst h
    exact hcat
  · rw [heq] at h
    cases h

/-- C9: in every comparison call, in both modes, the four category counts
sum to the summary total; items with no effective value on either side are
excluded from the counts entirely (the total counts exactly the population
items with an effective value on some side); and the summary is computed on
the full classified population before the offset/limit slice, so it is
independent of limit and offset. -/
theorem comparison_summary_consistent
    (db : DB) (req : ComparisonRequest) (res : ComparisonResult)
    (hok : compare_snapshots db req = .ok res) :
    res.summary.added + res.summary.removed + res.summary.modified +
        res.summary.unchanged = res.summary.total ∧
    (∀ sf, req.source_filter = some sf →
      res.summary.total = ((comparePopulation db req).filter
        (hasEffectiveSide db req.from_context_id req.to_context_id sf)).length) ∧
    (req.source_filter = none →
      res.summary.total = ((comparePopulation db req).filter
        (hasEffectiveSideAll db req.from_context_id req.to_context_id)).length) ∧
    ∃ full : List ItemComparison,
      full.length = res.summary.total ∧
      res.items = (full.drop req.offset).take req.limit ∧
      ∀ l2 o2, compare_snapshots db { req with limit := l2, offset := o2 }
        = .ok { res with items := (full.drop o2).take l2,
                         limit := l2, offset := o2 } := by
  unfold compare_snapshots at hok
  by_cases hv : ((req.item_ids.isNone && req.parent_item_id.isNone) ||
      (req.item_ids.isSome && req.parent_item_id.isSome)) = true
  · rw [if_pos hv] at hok
    cases hok
  · rw [if_neg hv] at hok
    cases hfc : validateContext db req.from_context_id with
    | error e =>
      rw [hfc] at hok
      cases hok
    | ok fromCtx =>
      rw [hfc] at hok
      cases htc : validateContext db req.to_context_id with
      | error e =>
        rw [htc] at hok
        cases hok
      | ok toCtx =>
        rw [htc] at hok
        dsimp only at hok
        by_cases hpe : (comparePopulation db req).isEmpty = true
        · rw [if_pos hpe] at hok
          simp only [Except.ok.injEq] at hok
          subst hok
          have hpop : comparePopulation db req = [] := List.isEmpty_iff.mp hpe
          refine ⟨rfl, ?_, ?_, [], rfl, by simp, ?_⟩
          · intro sf _
            rw [hpop]
            rfl
          · intro _
            rw [hpop]
            rfl
          · intro l2 o2
            have hpop2 : comparePopulation db { req with limit := l2, offset := o2 }
                = comparePopulation db req := rfl
            unfold compare_snapshots
            dsimp only
            rw [if_neg hv, hfc, htc]
            dsimp only
            rw [hpop2, if_pos hpe]
            simp
        · rw [if_neg hpe] at hok
          cases hsf : req.source_filter with
          | some sf =>
            rw [hsf] at hok
            dsimp only at hok
            cases hfind : db.findItem sf with
            | none =>
              rw [hfind] at hok
              cases hok
            | some sfItem =>
              rw [hfind] at hok
              dsimp only at hok
              cases hcat : categorizeWithSourceFilter db (comparePopulation db req)
                  req.from_context_id req.to_context_id sf with
              | error e =>
                rw [hcat] at hok
                cases hok
              | ok pr =>
                obtain ⟨comps, summary⟩ := pr
                have hcat0 := hcat
                rw [hcat] at hok
                dsimp only at hok
                simp only [Except.ok.injEq] at hok
                subst hok
                unfold categorizeWithSourceFilter at hcat
                cases hgo : categorizeGo
                    (categorizeSFItem db req.from_context_id req.to_context_id sf)
                    (comparePopulation db req) with
                | error e =>
                  rw [hgo] at hcat
                  cases hcat
                | ok res0 =>
                  obtain ⟨comps0, a, r, m, u⟩ := res0
                  rw [hgo] at hcat
                  dsimp only at hcat
                  simp only [Except.ok.injEq, Prod.mk.injEq] at hcat
                  obtain ⟨hc1, hc2⟩ := hcat
                  subst hc1
                  subst hc2
                  obtain ⟨hsum, hlen, hall⟩ := categorizeGo_spec _
                    (fun i ic hi => categorizeSFItem_cat db req.from_context_id
                      req.to_context_id sf i ic hi)
                    (comparePopulation db req) comps0 a r m u hgo
                  have hfilt : (comparePopulation db req).filter
                      (keptBy (categorizeSFItem db req.from_context_id
                        req.to_context_id sf))
                    = (comparePopulation db req).filter
                      (hasEffectiveSide db req.from_context_id req.to_context_id sf) := by
                    apply List.filter_congr
                    intro i hi
                    obtain ⟨x, hx⟩ := hall i hi
                    exact categorizeSFItem_kept db req.from_context_id
                      req.to_context_id sf i x hx
                  refine ⟨rfl, ?_, ?_, comps0, ?_, rfl, ?_⟩
                  · intro sf2 hsf2
                    injection hsf2 with hsf2
                    subst hsf2
                    show a + r + m + u = _
                    rw [hsum, hlen, hfilt]
                  · intro hnone
                    cases hnone
                  · show comps0.length = a + r + m + u
                    rw [hsum]
                  · intro l2 o2
                    have hpop2 : comparePopulation db
                        { item_ids := req.item_ids, parent_item_id := req.parent_item_id,
                          from_context_id := req.from_context_id,
                          to_context_id := req.to_context_id,
                          source_filter := some sf, limit := l2, offset := o2 }
                        = comparePopulation db req := rfl
                    unfold compare_snapshots
                    dsimp only
                    rw [if_neg hv, hfc, htc]
                    dsimp only
                    rw [hpop2, if_neg hpe]
                    rw [hfind]
                    dsimp only
                    rw [hcat0]
          | none =>
            rw [hsf] at hok
            dsimp only at hok
            cases hcat : categorizeWithEffectiveValues db (comparePopulation db req)
                req.from_context_id req.to_context_id with
            | error e =>
              rw [hcat] at hok
              cases hok
            | ok pr =>
              obtain ⟨comps, summary⟩ := pr
              have hcat0 := hcat
              rw [hcat] at hok
              dsimp only at hok
              simp only [Except.ok.injEq] at hok
              subst hok
              unfold categorizeWithEffectiveValues at hcat
              cases hgo : categorizeGo
                  (categorizeEVItem db req.from_context_id req.to_context_id)
                  (comparePopulation db req) with
              | error e =>
                rw [hgo] at hcat
                cases hcat
              | ok res0 =>
                obtain ⟨comps0, a, r, m, u⟩ := res0
                rw [hgo] at hcat
                dsimp only at hcat
                simp only [Except.ok.injEq, Prod.mk.injEq] at hcat
                obtain ⟨hc1, hc2⟩ := hcat
                subst hc1
                subst hc2
                obtain ⟨hsum, hlen, hall⟩ := categorizeGo_spec _
                  (fun i ic hi => categorizeEVItem_cat db req.from_context_id
                    req.to_context_id i ic hi)
                  (comparePopulation db req) comps0 a r m u hgo
                have hfilt : (comparePopulation db req).filter
                    (keptBy (categorizeEVItem db req.from_context_id req.to_context_id))
                  = (comparePopulation db req).filter
                    (hasEffectiveSideAll db req.from_context_id req.to_context_id) := by
                  apply List.filter_congr
                  intro i hi
                  obtain ⟨x, hx⟩ := hall i hi
                  exact categorizeEVItem_kept db req.from_context_id
                    req.to_context_id i x hx
                refine ⟨rfl, ?_, ?_, comps0, ?_, rfl, ?_⟩
                · intro sf2 hsf2
                  cases hsf2
                · intro _
                  show a + r + m + u = _
                  rw [hsum, hlen, hfilt]
                · show comps0.length = a + r + m + u
                  rw [hsum]
                · intro l2 o2
                  have hpop2 : comparePopulation db
                      { item_ids := req.item_ids, parent_item_id := req.parent_item_id,
                        from_context_id := req.from_context_id,
                        to_context_id := req.to_context_id,
                        source_filter := none, limit := l2, offset := o2 }
                      = comparePopulation db req := rfl
                  unfold compare_snapshots
                  dsimp only
                  rw [if_neg hv, hfc, htc]
                  dsimp only
                  rw [hpop2, if_neg hpe]
                  rw [hcat0]

def reqC9 : ComparisonRequest :=
  { item_ids := some [1], parent_item_id := none, from_context_id := 3,
    to_context_id := 4, source_filter := some 2, limit := 100, offset := 0 }

def resC9 : ComparisonResult :=
  { from_context := ⟨3, "milestone", some "A"⟩
  , to_context := ⟨4, "milestone", some "B"⟩
  , items := [ { item_id := 1, identifier := some "D1", item_type := "door",
                 category := "modified",
                 changes := [ { property_name := "finish",
                                old_value := some (PVal.str "wood"),
                                new_value := some (PVal.str "metal"),
                                from_context := 3, to_context := 4,
                                source := some 2 } ] } ]
  , summary := { added := 0, removed := 0, modified := 1, unchanged := 0, total := 1 }
  , limit := 100, offset := 0 }

/-- Witness for the C9 theorem at a concrete comparison call: one item,
source-filtered, classified as modified; the counts sum to the total, the
total equals the number of population items with an effective side, and the
summary survives every pagination slice. -/
theorem comparison_summary_consistent_witness :
    compare_snapshots dbTwoMilestones reqC9 = .ok resC9 ∧
    (resC9.summary.added + resC9.summary.removed + resC9.summary.modified +
        resC9.summary.unchanged = resC9.summary.total ∧
      (∀ sf, reqC9.source_filter = some sf →
        resC9.summary.total = ((comparePopulation dbTwoMilestones reqC9).filter
          (hasEffectiveSide dbTwoMilestones reqC9.from_context_id
            reqC9.to_context_id sf)).length) ∧
      (reqC9.source_filter = none →
        resC9.summary.total = ((comparePopulation dbTwoMilestones reqC9).filter
          (hasEffectiveSideAll dbTwoMilestones reqC9.from_context_id
            reqC9.to_context_id)).length) ∧
      ∃ full : List ItemComparison,
        full.length = resC9.summary.total ∧
        resC9.items = (full.drop reqC9.offset).take reqC9.limit ∧
        ∀ l2 o2, compare_snapshots dbTwoMilestones
            { reqC9 with limit := l2, offset := o2 }
          = .ok { resC9 with items := (full.drop o2).take l2,
                             limit := l2, offset := o2 }) :=
  ⟨rfl, comparison_summary_consistent dbTwoMilestones reqC9 resC9 rfl⟩

/-! ### The import pipeline (import_service.py)

`run_import` after file parsing: rows arrive as the parsed record list
(identifier plus string-valued properties).  Database writes become pure
store transformers; SQLAlchemy flushes and ORM identity are modelled by
threading the store.  Wall-clock timestamps are not modelled (created_at 0),
and the JSON array of mapped column names in the source self-snapshot is
encoded as a key set, the store value type having no array constructor;
neither field is read back by any modelled flow. -/

structure Row where
  identifier : String
  props : List (String × String)
deriving Repr

/-- import_service.py `_strip_to_alphanum`: lowercase, then keep only
ASCII letters and digits. -/
def stripToAlphanum (s : String) : String :=
  ⟨(s.data.map Char.toLower).filter (fun c =>
    (97 ≤ c.toNat && c.toNat ≤ 122) || (48 ≤ c.toNat && c.toNat ≤ 57))⟩

/-- Python str() of an optional identifier as rendered by an f-string:
None prints as "None". -/
def pyFStr : Option String → String
  | some s => s
  | none => "None"

/-- Python `x.identifier or x.id` followed by str(): the identifier when
truthy (present and non-empty), else the id. -/
def identOrId (it : Item) : String :=
  match it.identifier with
  | some s => if s == "" then toString it.id else s
  | none => toString it.id

/-- Python `identifier or "unknown"`. -/
def identOrUnknown : Option String → String
  | some s => if s == "" then "unknown" else s
  | none => "unknown"

/-- import_service.py `match_item`: exact match on (identifier, type) first,
then the first item of the type whose stripped identifier agrees. -/
def match_item (db : DB) (rawId : String) (itemType : String) : Option Item :=
  match db.items.find? (fun it =>
      it.identifier == some rawId && it.item_type == itemType) with
  | some it => some it
  | none =>
    (db.items.filter (fun it => it.item_type == itemType)).find? (fun it =>
      match it.identifier with
      | some idf => !(idf == "") && stripToAlphanum idf == stripToAlphanum rawId
      | none => false)

/-- `db.add(Item(...))` followed by flush/refresh: the item with the next
fresh id is appended. -/
def allocItem (db : DB) (ty : String) (ident : Option String)
    (props : List (String × PVal)) : DB × Item :=
  let it : Item := ⟨db.nextId, ty, ident, props⟩
  ({ db with items := db.items ++ [it], nextId := db.nextId + 1 }, it)

/-- The (item, context, source) snapshot lookup used by every upsert. -/
def findSnapshot (db : DB) (itemId ctxId srcId : ℕ) : Option Snapshot :=
  db.snapshots.find? (fun s =>
    s.item_id == itemId && s.context_id == ctxId && s.source_id == srcId)

/-- `db.add(Snapshot(...))`. -/
def addSnapshot (db : DB) (itemId ctxId srcId : ℕ)
    (props : List (String × PVal)) : DB :=
  { db with snapshots := db.snapshots ++ [⟨db.nextId, itemId, ctxId, srcId, props, 0⟩],
            nextId := db.nextId + 1 }

/-- Snapshot upsert on the (item, context, source) triple: update the
existing row in place, else insert. -/
def upsertSnapshot (db : DB) (itemId ctxId srcId : ℕ)
    (props : List (String × PVal)) : DB :=
  match findSnapshot db itemId ctxId srcId with
  | some s =>
    { db with snapshots := db.snapshots.map (fun t =>
        if t.id == s.id then { t with properties := props } else t) }
  | none => addSnapshot db itemId ctxId srcId props

/-- `db.add(Connection(...))`. -/
def addConnection (db : DB) (src tgt : ℕ) (props : List (String × PVal)) : DB :=
  { db with connections := db.connections ++ [⟨db.nextId, src, tgt, props⟩],
            nextId := db.nextId + 1 }

/-- Create the source→target connection unless one already exists. -/
def ensureConnection (db : DB) (src tgt : ℕ) (props : List (String × PVal)) : DB :=
  if db.connections.any (fun c =>
      c.source_item_id == src && c.target_item_id == tgt) then db
  else addConnection db src tgt props

/-- In-place assignment of an item row property map. -/
def setItemProps (db : DB) (itemId : ℕ) (props : List (String × PVal)) : DB :=
  { db with items := db.items.map (fun it =>
      if it.id == itemId then { it with properties := props } else it) }

/-- Row property values are stored as JSON strings. -/
def rowProps (r : Row) : List (String × PVal) :=
  r.props.map (fun p => (p.1, .str p.2))

/-- Step 1 of run_import for one row: match or create the item, record it
in row_to_item, upsert the (item, milestone, source) snapshot and ensure
the source→item connection. -/
def processRow (sourceId ctxId : ℕ) (targetType : String) (batchId : ℕ)
    (acc : DB × List (String × Item)) (r : Row) : DB × List (String × Item) :=
  let db := acc.1
  let res :=
    match match_item db r.identifier targetType with
    | some it => (db, it)
    | none => allocItem db targetType (some r.identifier) []
  let db := res.1
  let matched := res.2
  let rti := aSet r.identifier matched acc.2
  let db := upsertSnapshot db matched.id ctxId sourceId (rowProps r)
  let db := ensureConnection db sourceId matched.id
    [("created_by_import", .str (toString batchId))]
  (db, rti)

/-- import_service.py `_find_prior_context`: among the milestones where the
source already has snapshots, the one with the greatest ordinal strictly
below the current ordinal (leftmost on ties, matching the stable
descending sort). -/
def findPriorContext (db : DB) (sourceItemId : ℕ) (currentContext : Item) :
    Option Item :=
  match aGet "ordinal" currentContext.properties with
  | none => none
  | some ov =>
    match pyInt ov with
    | none => none
    | some cur =>
      let ctxs := db.items.filter (fun c =>
        db.snapshots.any (fun s =>
          s.source_id == sourceItemId && s.context_id == c.id))
      let valid := ctxs.filterMap (fun c =>
        match aGet "ordinal" c.properties with
        | none => none
        | some o =>
          match pyInt o with
          | none => none
          | some n => if n < cur then some (n, c) else none)
      (valid.foldl (fun best p =>
        match best with
        | none => some p
        | some b => if p.1 > b.1 then some p else best) none).map Prod.snd

/-- The change-detection comparison loop over the row properties: a diff
entry (property, prior value, new value) for every property whose prior
and current values fail values_match.  The prior value is read through
dict.get, so a stored null arrives at values_match as None (never as a
string) and always differs from the present row value; a signaling-NaN
raise aborts. -/
def computeChanges (priorProps : List (String × PVal)) :
    List (String × String) → Except Unit (List (String × Option PVal × String))
  | [] => .ok []
  | pv :: t =>
    match values_match ((pyGet pv.1 priorProps).map PVal.pyStr) (some pv.2) pv.1 with
    | none => .error ()
    | some true => computeChanges priorProps t
    | some false =>
      match computeChanges priorProps t with
      | .error e => .error e
      | .ok rest => .ok ((pv.1, pyGet pv.1 priorProps, pv.2) :: rest)

/-- The JSON changes dictionary of a change item. -/
def changesDict (changes : List (String × Option PVal × String)) : PVal :=
  .dict (changes.map (fun c => (c.1, .dict [("old", c.2.1.getD .null), ("new", .str c.2.2)])))

/-- The property map written onto a change item and its self-snapshot. -/
def changeProps (changes : List (String × Option PVal × String))
    (fromId toId srcId affId : ℕ) : List (String × PVal) :=
  [ ("status", .str "DETECTED")
  , ("changes", changesDict changes)
  , ("from_context", .str (toString fromId))
  , ("to_context", .str (toString toId))
  , ("source", .str (toString srcId))
  , ("affected_item", .str (toString affId)) ]

/-- The change item identifier "{source} / {item} / {prior}→{current}". -/
def changeIdent (sourceItem matched priorContext timeContext : Item) : String :=
  pyFStr sourceItem.identifier ++ " / " ++ pyFStr matched.identifier ++ " / "
    ++ pyFStr priorContext.identifier ++ "→" ++ pyFStr timeContext.identifier

/-- The writes performed for one detected change: the single change item
carrying the whole diff dictionary, its self-sourced snapshot and its four
connections. -/
def changeApply (sourceItem timeContext priorContext matched : Item) (db : DB)
    (changes : List (String × Option PVal × String)) : DB :=
  let cProps := changeProps changes priorContext.id timeContext.id
    sourceItem.id matched.id
  let res := allocItem db "change"
    (some (changeIdent sourceItem matched priorContext timeContext)) cProps
  let db := addSnapshot res.1 res.2.id timeContext.id res.2.id cProps
  let db := addConnection db res.2.id sourceItem.id []
  let db := addConnection db res.2.id timeContext.id
    [("relationship", .str "to_context")]
  let db := addConnection db res.2.id priorContext.id
    [("relationship", .str "from_context")]
  addConnection db res.2.id matched.id []

/-- Change detection for one row: when the row matched an item holding a
prior snapshot and some property fails values_match, one change item is
created for the row carrying the whole diff dictionary, with its
self-sourced snapshot and its four connections. -/
def changeStep (sourceItem timeContext priorContext : Item)
    (rti : List (String × Item)) (db : DB) (r : Row) : Except Unit DB :=
  match aGet r.identifier rti with
  | none => .ok db
  | some matched =>
    match findSnapshot db matched.id priorContext.id sourceItem.id with
    | none => .ok db
    | some priorSnap =>
      match computeChanges priorSnap.properties r.props with
      | .error e => .error e
      | .ok [] => .ok db
      | .ok (d :: ds) =>
        .ok (changeApply sourceItem timeContext priorContext matched db (d :: ds))

def changeDetect (sourceItem timeContext priorContext : Item)
    (rti : List (String × Item)) (db : DB) : List Row → Except Unit DB
  | [] => .ok db
  | r :: t =>
    match changeStep sourceItem timeContext priorContext rti db r with
    | .error e => .error e
    | .ok db2 => changeDetect sourceItem timeContext priorContext rti db2 t

/-- Step 3 of run_import: change detection runs only when the source has a
prior context. -/
def changePhase (sourceItem timeContext : Item) (rti : List (String × Item))
    (db : DB) (rows : List Row) : Except Unit DB :=
  match findPriorContext db sourceItem.id timeContext with
  | none => .ok db
  | some prior => changeDetect sourceItem timeContext prior rti db rows

/-- import_service.py `_get_or_create_conflict`: one conflict item per
"{identifier} / {property}" key, looked up before creation. -/
def getOrCreateConflict (db : DB) (affected : Item) (propertyPath : String) :
    DB × Item × Bool :=
  let identifier := pyFStr affected.identifier ++ " / " ++ propertyPath
  match db.items.find? (fun it =>
      it.item_type == "conflict" && it.identifier == some identifier) with
  | some existing => (db, existing, false)
  | none =>
    let res := allocItem db "conflict" (some identifier)
      [ ("property_name", .str propertyPath)
      , ("status", .str "detected")
      , ("affected_item", .str (toString affected.id)) ]
    (res.1, res.2, true)

/-- The ordinal of the import milestone, defaulting to 0 on a missing or
unconvertible value. -/
def contextOrdinalOf (timeContext : Item) : ℤ :=
  (pyInt ((aGet "ordinal" timeContext.properties).getD (.int 0))).getD 0

/-- The display identifier of another source, str(id) when the item row is
missing and str(None) when its identifier is null. -/
def otherIdentOf (db : DB) (sid : ℕ) : String :=
  match db.findItem sid with
  | some s => pyFStr s.identifier
  | none => toString sid

/-- The conflict-detection body for one (other source, property) pair.  On
disagreement: get-or-create the conflict item, upsert its self-sourced
DETECTED snapshot holding both values, ensure its four connections, and
count it when new.  On agreement: when a conflict item exists for the pair
and its status is detected, upsert a self-sourced RESOLVED_BY_AGREEMENT
snapshot with the agreed value, flip the item status to
resolved_by_agreement and count a resolved conflict; otherwise no write.
A property the other snapshot stores as null (or not at all) reads back
as None and is skipped before values_match is ever consulted. -/
def conflictStepProp (sourceItem timeContext matched : Item) (otherSrcId : ℕ)
    (otherSnap : Snapshot) (otherIdent : String) (st : DB × ℕ × ℕ)
    (pv : String × String) : Except Unit (DB × ℕ × ℕ) :=
  match pyGet pv.1 otherSnap.properties with
  | none => .ok st
  | some otherValue =>
    match values_match (some pv.2) (some otherValue.pyStr) pv.1 with
    | none => .error ()
    | some false =>
      let res := getOrCreateConflict st.1 matched pv.1
      let conflictItem := res.2.1
      let snapProps : List (String × PVal) :=
        [ ("status", .str "DETECTED")
        , ("property_path", .str pv.1)
        , ("values", .dict (aSet otherIdent (.str otherValue.pyStr)
            [(identOrId sourceItem, .str pv.2)]))
        , ("affected_item", .str (toString matched.id)) ]
      let db := upsertSnapshot res.1 conflictItem.id timeContext.id
        conflictItem.id snapProps
      let db := ensureConnection db conflictItem.id matched.id []
      let db := ensureConnection db conflictItem.id sourceItem.id []
      let db := ensureConnection db conflictItem.id otherSrcId []
      let db := ensureConnection db conflictItem.id timeContext.id []
      .ok (db, (if res.2.2 then st.2.1 + 1 else st.2.1), st.2.2)
    | some true =>
      match st.1.items.find? (fun it => it.item_type == "conflict" &&
          it.identifier == some (pyFStr matched.identifier ++ " / " ++ pv.1)) with
      | none => .ok st
      | some existingConflict =>
        match aGet "status" existingConflict.properties with
        | none => .ok st
        | some v =>
          if PVal.beq v (.str "detected") then
            let db := upsertSnapshot st.1 existingConflict.id timeContext.id
              existingConflict.id
              [ ("status", .str "RESOLVED_BY_AGREEMENT")
              , ("property_path", .str pv.1)
              , ("agreed_value", .str pv.2) ]
            let db := setItemProps db existingConflict.id
              (aUpdate existingConflict.properties
                [("status", .str "resolved_by_agreement")])
            .ok (db, st.2.1, st.2.2 + 1)
          else .ok st

def conflictProps (sourceItem timeContext matched : Item) (otherSrcId : ℕ)
    (otherSnap : Snapshot) (otherIdent : String) (st : DB × ℕ × ℕ) :
    List (String × String) → Except Unit (DB × ℕ × ℕ)
  | [] => .ok st
  | pv :: t =>
    match conflictStepProp sourceItem timeContext matched otherSrcId otherSnap
        otherIdent st pv with
    | .error e => .error e
    | .ok st2 =>
      conflictProps sourceItem timeContext matched otherSrcId otherSnap
        otherIdent st2 t

def conflictSources (sourceItem timeContext matched : Item) (r : Row)
    (st : DB × ℕ × ℕ) : List (ℕ × Snapshot × String) → Except Unit (DB × ℕ × ℕ)
  | [] => .ok st
  | o :: t =>
    match conflictProps sourceItem timeContext matched o.1 o.2.1 o.2.2 st r.props with
    | .error e => .error e
    | .ok st2 => conflictSources sourceItem timeContext matched r st2 t

/-- Conflict detection for one row: the importing source values against
each other source effective snapshot (the other-source display identifiers
are resolved before the loop, as in the code). -/
def conflictRow (sourceItem timeContext : Item) (rti : List (String × Item))
    (contextOrdinal : ℤ) (st : DB × ℕ × ℕ) (r : Row) :
    Except Unit (DB × ℕ × ℕ) :=
  match aGet r.identifier rti with
  | none => .ok st
  | some matched =>
    let other := getEffectiveSnapshotsFromOtherSources st.1 matched.id
      sourceItem.id contextOrdinal
    if other.isEmpty then .ok st
    else
      conflictSources sourceItem timeContext matched r st
        (other.map (fun p => (p.1, p.2, otherIdentOf st.1 p.1)))

def conflictRows (sourceItem timeContext : Item) (rti : List (String × Item))
    (contextOrdinal : ℤ) (st : DB × ℕ × ℕ) : List Row → Except Unit (DB × ℕ × ℕ)
  | [] => .ok st
  | r :: t =>
    match conflictRow sourceItem timeContext rti contextOrdinal st r with
    | .error e => .error e
    | .ok st2 => conflictRows sourceItem timeContext rti contextOrdinal st2 t

/-- Step 4 of run_import, threading the (new, resolved) conflict counters. -/
def conflictPhase (sourceItem timeContext : Item) (rti : List (String × Item))
    (db : DB) (rows : List Row) : Except Unit (DB × ℕ × ℕ) :=
  conflictRows sourceItem timeContext rti (contextOrdinalOf timeContext)
    (db, 0, 0) rows

/-- The source self-snapshot metadata. -/
def selfSnapshotProps (rowCount : ℕ) (cols : List String) (fileType : String)
    (batchId : ℕ) : List (String × PVal) :=
  [ ("row_count", .int rowCount)
  , ("columns_mapped", .dict (cols.map (fun c => (c, .null))))
  , ("import_date", .null)
  , ("file_type", .str fileType)
  , ("batch_id", .str (toString batchId)) ]

/-- import_service.py `run_import` on parsed rows: batch item, per-row
processing, source self-snapshot, change detection, conflict detection,
batch completion.  Returns the store and the (new, resolved) conflict
counters; a values_match raise aborts the run. -/
def run_import (db : DB) (rows : List Row) (sourceItem timeContext : Item)
    (targetType fileType : String) (columnsMapped : List String) :
    Except Unit (DB × ℕ × ℕ) :=
  let batchProps : List (String × PVal) :=
    [ ("filename", .str fileType)
    , ("row_count", .int rows.length)
    , ("status", .str "processing")
    , ("source_item_id", .str (toString sourceItem.id))
    , ("time_context_id", .str (toString timeContext.id)) ]
  let res0 := allocItem db "import_batch"
    (some ("Import-" ++ identOrUnknown sourceItem.identifier ++ "-"
      ++ identOrUnknown timeContext.identifier)) batchProps
  let batchItem := res0.2
  let res1 := rows.foldl
    (processRow sourceItem.id timeContext.id targetType batchItem.id) (res0.1, [])
  let rti := res1.2
  let db1 := upsertSnapshot res1.1 sourceItem.id timeContext.id sourceItem.id
    (selfSnapshotProps rows.length columnsMapped fileType batchItem.id)
  match changePhase sourceItem timeContext rti db1 rows with
  | .error e => .error e
  | .ok db2 =>
    match conflictPhase sourceItem timeContext rti db2 rows with
    | .error e => .error e
    | .ok st =>
      .ok (setItemProps st.1 batchItem.id
        (aUpdate batchItem.properties [("status", .str "completed")]),
        st.2.1, st.2.2)

/-- One queued import call: its parsed rows, source, milestone and mapping
configuration. -/
structure ImportJob where
  rows : List Row
  source : Item
  timeContext : Item
  targetType : String
  fileType : String
  columnsMapped : List String
deriving Repr

/-- A sequence of import runs, each starting from the store the previous
run produced. -/
def runImports (db : DB) : List ImportJob → Except Unit DB
  | [] => .ok db
  | j :: t =>
    match run_import db j.rows j.source j.timeContext j.targetType j.fileType
        j.columnsMapped with
    | .error e => .error e
    | .ok st => runImports st.1 t

/-- The identifiers of the conflict-typed items, in store order. -/
def conflictIdents (db : DB) : List (Option String) :=
  (db.items.filter (fun it => it.item_type == "conflict")).map
    (fun it => it.identifier)

/-- The change items recording the given (source, affected item,
from-context, to-context) tuple. -/
def changeItemsFor (db : DB) (srcId affId fromId toId : ℕ) : List Item :=
  db.items.filter (fun it => it.item_type == "change" &&
    aGet "source" it.properties == some (PVal.str (toString srcId)) &&
    aGet "affected_item" it.properties == some (PVal.str (toString affId)) &&
    aGet "from_context" it.properties == some (PVal.str (toString fromId)) &&
    aGet "to_context" it.properties == some (PVal.str (toString toId)))

/-- C7: during conflict detection, when the importing value agrees with
another source effective value and a conflict item exists for the
(entity, property) key, the step auto-resolves exactly when the stored
status is detected: it upserts the self-sourced RESOLVED_BY_AGREEMENT
snapshot carrying the agreed value, flips the conflict item status to
resolved_by_agreement, and increments the resolved counter; with any other
status (or none) it leaves the store and the counters untouched. -/
theorem agreement_auto_resolution
    (sourceItem timeContext matched : Item) (otherSrcId : ℕ)
    (otherSnap : Snapshot) (otherIdent : String) (db : DB) (n r : ℕ)
    (prop newVal : String) (otherValue : PVal) (c : Item)
    (hv : pyGet prop otherSnap.properties = some otherValue)
    (hmatch : values_match (some newVal) (some otherValue.pyStr) prop = some true)
    (hc : db.items.find? (fun it => it.item_type == "conflict" &&
      it.identifier == some (pyFStr matched.identifier ++ " / " ++ prop)) = some c) :
    (∀ v, aGet "status" c.properties = some v →
      (PVal.beq v (.str "detected") = true →
        conflictStepProp sourceItem timeContext matched otherSrcId otherSnap
            otherIdent (db, n, r) (prop, newVal)
          = .ok (setItemProps
              (upsertSnapshot db c.id timeContext.id c.id
                [ ("status", .str "RESOLVED_BY_AGREEMENT")
                , ("property_path", .str prop)
                , ("agreed_value", .str newVal) ])
              c.id (aUpdate c.properties [("status", .str "resolved_by_agreement")]),
            n, r + 1)) ∧
      (PVal.beq v (.str "detected") = false →
        conflictStepProp sourceItem timeContext matched otherSrcId otherSnap
            otherIdent (db, n, r) (prop, newVal) = .ok (db, n, r))) ∧
    (aGet "status" c.properties = none →
      conflictStepProp sourceItem timeContext matched otherSrcId otherSnap
          otherIdent (db, n, r) (prop, newVal) = .ok (db, n, r)) := by
  have hred : conflictStepProp sourceItem timeContext matched otherSrcId otherSnap
      otherIdent (db, n, r) (prop, newVal)
      = match pyGet prop otherSnap.properties with
        | none => .ok (db, n, r)
        | some otherValue =>
          match values_match (some newVal) (some otherValue.pyStr) prop with
          | none => .error ()
          | some false =>
            let res := getOrCreateConflict db matched prop
            let conflictItem := res.2.1
            let snapProps : List (String × PVal) :=
              [ ("status", .str "DETECTED")
              , ("property_path", .str prop)
              , ("values", .dict (aSet otherIdent (.str otherValue.pyStr)
                  [(identOrId sourceItem, .str newVal)]))
              , ("affected_item", .str (toString matched.id)) ]
            let db2 := upsertSnapshot res.1 conflictItem.id timeContext.id
              conflictItem.id snapProps
            let db2 := ensureConnection db2 conflictItem.id matched.id []
            let db2 := ensureConnection db2 conflictItem.id sourceItem.id []
            let db2 := ensureConnection db2 conflictItem.id otherSrcId []
            let db2 := ensureConnection db2 conflictItem.id timeContext.id []
            .ok (db2, (if res.2.2 then n + 1 else n), r)
          | some true =>
            match db.items.find? (fun it => it.item_type == "conflict" &&
                it.identifier == some (pyFStr matched.identifier ++ " / " ++ prop)) with
            | none => .ok (db, n, r)
            | some existingConflict =>
              match aGet "status" existingConflict.properties with
              | none => .ok (db, n, r)
              | some v =>
                if PVal.beq v (.str "detected") then
                  let db2 := upsertSnapshot db existingConflict.id timeContext.id
                    existingConflict.id
                    [ ("status", .str "RESOLVED_BY_AGREEMENT")
                    , ("property_path", .str prop)
                    , ("agreed_value", .str newVal) ]
                  let db2 := setItemProps db2 existingConflict.id
                    (aUpdate existingConflict.properties
                      [("status", .str "resolved_by_agreement")])
                  .ok (db2, n, r + 1)
                else .ok (db, n, r) := rfl
  rw [hred, hv]
  dsimp only
  rw [hmatch]
  dsimp only
  rw [hc]
  dsimp only
  refine ⟨fun v hs => ?_, fun hs => ?_⟩
  · rw [hs]
    dsimp only
    exact ⟨fun hb => by rw [if_pos hb], fun hb => by rw [if_neg (by simp [hb])]⟩
  · rw [hs]

def cC7 : Item :=
  ⟨10, "conflict", some "D1 / finish",
    [ ("property_name", .str "finish"), ("status", .str "detected")
    , ("affected_item", .str "4") ]⟩

def dbC7 : DB :=
  { items := [ ⟨1, "schedule", some "S1", []⟩, ⟨4, "door", some "D1", []⟩, cC7 ]
  , snapshots := []
  , connections := []
  , nextId := 11 }

def snapC7 : Snapshot := ⟨5, 4, 3, 1, [("finish", .str "wood")], 0⟩

/-- Witness for the C7 theorem: with a detected conflict recorded for
(D1, finish) and the importing source agreeing with the other source, the
step writes the resolution snapshot, flips the status and counts one
resolved conflict. -/
theorem agreement_auto_resolution_witness :
    conflictStepProp ⟨2, "schedule", some "S2", []⟩
        ⟨3, "milestone", some "M", [("ordinal", .int 100)]⟩
        ⟨4, "door", some "D1", []⟩ 1 snapC7 "S1" (dbC7, 0, 0) ("finish", "wood")
      = .ok (setItemProps
          (upsertSnapshot dbC7 cC7.id 3 cC7.id
            [ ("status", .str "RESOLVED_BY_AGREEMENT")
            , ("property_path", .str "finish")
            , ("agreed_value", .str "wood") ])
          cC7.id (aUpdate cC7.properties [("status", .str "resolved_by_agreement")]),
        0, 1) :=
  ((agreement_auto_resolution ⟨2, "schedule", some "S2", []⟩
      ⟨3, "milestone", some "M", [("ordinal", .int 100)]⟩
      ⟨4, "door", some "D1", []⟩ 1 snapC7 "S1" dbC7 0 0 "finish" "wood"
      (PVal.str "wood") cC7 rfl rfl rfl).1 (PVal.str "detected") rfl).1 rfl

theorem computeChanges_spec (prior : List (String × PVal)) :
    ∀ (cur : List (String × String)) (ds : List (String × Option PVal × String)),
    computeChanges prior cur = .ok ds →
    (∀ x ∈ ds, x.2.1 = pyGet x.1 prior ∧ (x.1, x.2.2) ∈ cur ∧
      values_match ((pyGet x.1 prior).map PVal.pyStr) (some x.2.2) x.1 = some false) ∧
    (∀ pv ∈ cur,
      values_match ((pyGet pv.1 prior).map PVal.pyStr) (some pv.2) pv.1 = some false →
      (pv.1, pyGet pv.1 prior, pv.2) ∈ ds) := by
  intro cur
  induction cur with
  | nil =>
    intro ds h
    have h2 : (Except.ok [] : Except Unit (List (String × Option PVal × String)))
        = .ok ds := h
    injection h2 with h3
    subst h3
    exact ⟨fun x hx => absurd hx (List.not_mem_nil x),
      fun pv hpv => absurd hpv (List.not_mem_nil pv)⟩
  | cons pv t ih =>
    intro ds h
    have hred : computeChanges prior (pv :: t)
        = match values_match ((pyGet pv.1 prior).map PVal.pyStr) (some pv.2) pv.1 with
          | none => .error ()
          | some true => computeChanges prior t
          | some false =>
            match computeChanges prior t with
            | .error e => .error e
            | .ok rest => .ok ((pv.1, pyGet pv.1 prior, pv.2) :: rest) := rfl
    rw [hred] at h
    cases hvm : values_match ((pyGet pv.1 prior).map PVal.pyStr) (some pv.2) pv.1 with
    | none =>
      rw [hvm] at h
      cases h
    | some b =>
      cases b with
      | true =>
        rw [hvm] at h
        dsimp only at h
        obtain ⟨hsnd, hcmp⟩ := ih ds h
        refine ⟨fun x hx => ?_, ?_⟩
        · obtain ⟨h1, h2, h3⟩ := hsnd x hx
          exact ⟨h1, List.mem_cons_of_mem _ h2, h3⟩
        intro pv2 hpv2 hfalse
        rcases List.mem_cons.mp hpv2 with heq | hmem
        · subst heq
          rw [hvm] at hfalse
          simp at hfalse
        · exact hcmp pv2 hmem hfalse
      | false =>
        rw [hvm] at h
        dsimp only at h
        cases hrec : computeChanges prior t with
        | error e =>
          rw [hrec] at h
          cases h
        | ok rest =>
          rw [hrec] at h
          dsimp only at h
          simp only [Except.ok.injEq] at h
          subst h
          obtain ⟨hsnd, hcmp⟩ := ih rest hrec
          constructor
          · intro x hx
            rcases List.mem_cons.mp hx with heq | hmem
            · subst heq
              exact ⟨rfl, by simp, hvm⟩
            · obtain ⟨h1, h2, h3⟩ := hsnd x hmem
              exact ⟨h1, List.mem_cons_of_mem _ h2, h3⟩
          · intro pv2 hpv2 hfalse
            rcases List.mem_cons.mp hpv2 with heq | hmem
            · subst heq
              exact List.mem_cons_self _ _
            · exact List.mem_cons_of_mem _ (hcmp pv2 hmem hfalse)

theorem changeApply_items (sourceItem timeContext priorContext matched : Item)
    (db : DB) (changes : List (String × Option PVal × String)) :
    (changeApply sourceItem timeContext priorContext matched db changes).items
      = db.items ++ [⟨db.nextId, "change",
          some (changeIdent sourceItem matched priorContext timeContext),
          changeProps changes priorContext.id timeContext.id
            sourceItem.id matched.id⟩] := rfl

/-- C4 (amended): for a row that matched an item with a prior snapshot,
change detection creates exactly one change item when some property fails
values_match, none when all agree; the one item carries in its changes
dictionary all differing properties (old and new value) and only those.
The keying is per processed row, not per (source, entity, from-context,
to-context) tuple. -/
theorem change_step_bundles_all_diffs
    (sourceItem timeContext priorContext matched : Item)
    (rti : List (String × Item)) (db : DB) (r : Row) (priorSnap : Snapshot)
    (hm : aGet r.identifier rti = some matched)
    (hs : findSnapshot db matched.id priorContext.id sourceItem.id = some priorSnap) :
    (computeChanges priorSnap.properties r.props = .ok [] →
      changeStep sourceItem timeContext priorContext rti db r = .ok db) ∧
    (∀ d ds, computeChanges priorSnap.properties r.props = .ok (d :: ds) →
      changeStep sourceItem timeContext priorContext rti db r
        = .ok (changeApply sourceItem timeContext priorContext matched db (d :: ds)) ∧
      (changeApply sourceItem timeContext priorContext matched db (d :: ds)).items
        = db.items ++ [⟨db.nextId, "change",
            some (changeIdent sourceItem matched priorContext timeContext),
            changeProps (d :: ds) priorContext.id timeContext.id
              sourceItem.id matched.id⟩] ∧
      (∀ x ∈ d :: ds, x.2.1 = pyGet x.1 priorSnap.properties ∧
        (x.1, x.2.2) ∈ r.props ∧
        values_match ((pyGet x.1 priorSnap.properties).map PVal.pyStr)
          (some x.2.2) x.1 = some false) ∧
      (∀ pv ∈ r.props,
        values_match ((pyGet pv.1 priorSnap.properties).map PVal.pyStr)
          (some pv.2) pv.1 = some false →
        (pv.1, pyGet pv.1 priorSnap.properties, pv.2) ∈ d :: ds)) := by
  have hred : changeStep sourceItem timeContext priorContext rti db r
      = match aGet r.identifier rti with
        | none => .ok db
        | some mi =>
          match findSnapshot db mi.id priorContext.id sourceItem.id with
          | none => .ok db
          | some ps =>
            match computeChanges ps.properties r.props with
            | .error e => .error e
            | .ok [] => .ok db
            | .ok (d :: ds) =>
              .ok (changeApply sourceItem timeContext priorContext mi db (d :: ds)) := rfl
  rw [hred, hm]
  dsimp only
  rw [hs]
  dsimp only
  constructor
  · intro hc
    rw [hc]
  · intro d ds hc
    rw [hc]
    obtain ⟨hsnd, hcmp⟩ := computeChanges_spec priorSnap.properties r.props (d :: ds) hc
    exact ⟨rfl, changeApply_items sourceItem timeContext priorContext matched db (d :: ds),
      hsnd, hcmp⟩

def dbC4 : DB :=
  { items :=
      [ ⟨1, "schedule", some "S", []⟩
      , ⟨2, "milestone", some "P", [("ordinal", .int 100)]⟩
      , ⟨3, "milestone", some "C", [("ordinal", .int 200)]⟩
      , ⟨4, "door", some "D1", []⟩ ]
  , snapshots := [ ⟨5, 4, 2, 1, [("finish", .str "wood")], 0⟩ ]
  , connections := []
  , nextId := 6 }

def srcC4 : Item := ⟨1, "schedule", some "S", []⟩

def ctxC4 : Item := ⟨3, "milestone", some "C", [("ordinal", .int 200)]⟩

def rowC4 : Row := ⟨"D1", [("finish", "metal")]⟩

/-- C4 (counterexample): two parsed rows carrying the same identifier both
match the same item, and the import creates one change item per row with
no per-tuple get-or-create: after the run two change entities record the
same (source, affected entity, from-context, to-context) tuple, under the
same identifier. -/
theorem change_items_not_unique_per_tuple :
    ∃ st, run_import dbC4 [rowC4, rowC4] srcC4 ctxC4 "door" "csv" ["finish"]
        = .ok st ∧
      (changeItemsFor st.1 1 4 2 3).length = 2 ∧
      (changeItemsFor st.1 1 4 2 3).map (fun it => it.identifier)
        = [some "S / D1 / P→C", some "S / D1 / P→C"] :=
  ⟨_, rfl, rfl, rfl⟩

/-- Witness for the C4 amended theorem: one row changing finish from wood
to metal yields exactly one change item bundling that single diff. -/
theorem change_step_bundles_all_diffs_witness :
    computeChanges [("finish", PVal.str "wood")] rowC4.props
        = .ok [("finish", some (PVal.str "wood"), "metal")] ∧
    changeStep srcC4 ctxC4 ⟨2, "milestone", some "P", [("ordinal", .int 100)]⟩
        [("D1", ⟨4, "door", some "D1", []⟩)] dbC4 rowC4
      = .ok (changeApply srcC4 ctxC4
          ⟨2, "milestone", some "P", [("ordinal", .int 100)]⟩
          ⟨4, "door", some "D1", []⟩ dbC4
          [("finish", some (PVal.str "wood"), "metal")]) ∧
    (changeApply srcC4 ctxC4 ⟨2, "milestone", some "P", [("ordinal", .int 100)]⟩
        ⟨4, "door", some "D1", []⟩ dbC4
        [("finish", some (PVal.str "wood"), "metal")]).items
      = dbC4.items ++ [⟨6, "change", some "S / D1 / P→C",
          changeProps [("finish", some (PVal.str "wood"), "metal")] 2 3 1 4⟩] :=
  ⟨rfl,
    ((change_step_bundles_all_diffs srcC4 ctxC4
        ⟨2, "milestone", some "P", [("ordinal", .int 100)]⟩
        ⟨4, "door", some "D1", []⟩ [("D1", ⟨4, "door", some "D1", []⟩)]
        dbC4 rowC4 ⟨5, 4, 2, 1, [("finish", .str "wood")], 0⟩ rfl rfl).2
      ("finish", some (PVal.str "wood"), "metal") [] rfl).1,
    ((change_step_bundles_all_diffs srcC4 ctxC4
        ⟨2, "milestone", some "P", [("ordinal", .int 100)]⟩
        ⟨4, "door", some "D1", []⟩ [("D1", ⟨4, "door", some "D1", []⟩)]
        dbC4 rowC4 ⟨5, 4, 2, 1, [("finish", .str "wood")], 0⟩ rfl rfl).2
      ("finish", some (PVal.str "wood"), "metal") [] rfl).2.1⟩

/-! ### C3: conflict uniqueness as a store invariant -/

theorem conflictIdents_addSnapshot (db : DB) (a b c : ℕ)
    (p : List (String × PVal)) :
    conflictIdents (addSnapshot db a b c p) = conflictIdents db := rfl

theorem conflictIdents_upsertSnapshot (db : DB) (a b c : ℕ)
    (p : List (String × PVal)) :
    conflictIdents (upsertSnapshot db a b c p) = conflictIdents db := by
  unfold upsertSnapshot
  cases findSnapshot db a b c <;> rfl

theorem conflictIdents_addConnection (db : DB) (a b : ℕ)
    (p : List (String × PVal)) :
    conflictIdents (addConnection db a b p) = conflictIdents db := rfl

theorem conflictIdents_ensureConnection (db : DB) (a b : ℕ)
    (p : List (String × PVal)) :
    conflictIdents (ensureConnection db a b p) = conflictIdents db := by
  unfold ensureConnection
  split <;> rfl

theorem conflictIdents_setItemProps (db : DB) (i : ℕ)
    (p : List (String × PVal)) :
    conflictIdents (setItemProps db i p) = conflictIdents db := by
  unfold conflictIdents setItemProps
  dsimp only
  induction db.items with
  | nil => rfl
  | cons a t ih =>
    have ih2 := ih
    simp only [beq_iff_eq] at ih2
    by_cases hid : a.id = i <;> by_cases hty : a.item_type = "conflict" <;>
      simp [List.filter_cons, hid, hty, ih2]

theorem conflictIdents_allocItem (db : DB) (ty : String) (idf : Option String)
    (p : List (String × PVal)) :
    conflictIdents (allocItem db ty idf p).1
      = conflictIdents db ++ (if (ty == "conflict") = true then [idf] else []) := by
  unfold conflictIdents allocItem
  dsimp only
  rw [List.filter_append, List.map_append]
  cases hty : (ty == "conflict") <;> simp [List.filter_cons, hty]

theorem mem_conflictIdents (db : DB) (x : Option String) :
    x ∈ conflictIdents db
      ↔ ∃ it ∈ db.items, (it.item_type == "conflict") = true ∧ it.identifier = x := by
  unfold conflictIdents
  simp [List.mem_filter, and_assoc]

theorem nodup_append_single {α : Type} (l : List α) (a : α) (h : l.Nodup)
    (ha : a ∉ l) : (l ++ [a]).Nodup := by
  rw [List.nodup_append]
  refine ⟨h, List.nodup_singleton a, fun b hb hb2 => ?_⟩
  simp only [List.mem_singleton] at hb2
  subst hb2
  exact ha hb

theorem conflictOK_getOrCreateConflict (db : DB) (aff : Item) (p : String)
    (h : (conflictIdents db).Nodup) :
    (conflictIdents (getOrCreateConflict db aff p).1).Nodup := by
  unfold getOrCreateConflict
  dsimp only
  cases hf : db.items.find? (fun it => it.item_type == "conflict" &&
      it.identifier == some (pyFStr aff.identifier ++ " / " ++ p)) with
  | some e => exact h
  | none =>
    dsimp only
    rw [conflictIdents_allocItem, if_pos (by decide)]
    refine nodup_append_single _ _ h (fun hmem => ?_)
    obtain ⟨it, hit, hty, hident⟩ := (mem_conflictIdents db _).mp hmem
    exact List.find?_eq_none.mp hf it hit (by simp [hty, hident])

theorem match_item_none_exact (db : DB) (raw ty : String)
    (h : match_item db raw ty = none) :
    db.items.find? (fun it => it.identifier == some raw && it.item_type == ty)
      = none := by
  unfold match_item at h
  cases hf : db.items.find? (fun it =>
      it.identifier == some raw && it.item_type == ty) with
  | none => rfl
  | some it =>
    rw [hf] at h
    cases h

theorem conflictOK_processRow (sourceId ctxId : ℕ) (ty : String) (bId : ℕ)
    (acc : DB × List (String × Item)) (r : Row)
    (h : (conflictIdents acc.1).Nodup) :
    (conflictIdents (processRow sourceId ctxId ty bId acc r).1).Nodup := by
  unfold processRow
  dsimp only
  cases hm : match_item acc.1 r.identifier ty with
  | some it =>
    dsimp only
    rw [conflictIdents_ensureConnection, conflictIdents_upsertSnapshot]
    exact h
  | none =>
    dsimp only
    rw [conflictIdents_ensureConnection, conflictIdents_upsertSnapshot,
      conflictIdents_allocItem]
    cases hty : (ty == "conflict") with
    | false => simpa using h
    | true =>
      rw [if_pos rfl]
      refine nodup_append_single _ _ h (fun hmem => ?_)
      obtain ⟨it, hit, hty2, hident⟩ := (mem_conflictIdents _ _).mp hmem
      have hteq : ty = "conflict" := by simpa using hty
      subst hteq
      exact (List.find?_eq_none.mp (match_item_none_exact acc.1 r.identifier _ hm)
        it hit) (by simp [hident, hty2])

theorem conflictOK_importRows (sourceId ctxId : ℕ) (ty : String) (bId : ℕ) :
    ∀ (rows : List Row) (acc : DB × List (String × Item)),
    (conflictIdents acc.1).Nodup →
    (conflictIdents
      (rows.foldl (processRow sourceId ctxId ty bId) acc).1).Nodup := by
  intro rows
  induction rows with
  | nil => exact fun acc h => h
  | cons r t ih =>
    intro acc h
    rw [List.foldl_cons]
    exact ih _ (conflictOK_processRow sourceId ctxId ty bId acc r h)

theorem conflictIdents_changeApply (si tc pc mi : Item) (db : DB)
    (changes : List (String × Option PVal × String)) :
    conflictIdents (changeApply si tc pc mi db changes) = conflictIdents db := by
  unfold changeApply
  dsimp only
  rw [conflictIdents_addConnection, conflictIdents_addConnection,
    conflictIdents_addConnection, conflictIdents_addConnection,
    conflictIdents_addSnapshot, conflictIdents_allocItem, if_neg (by decide)]
  exact List.append_nil _

theorem conflictIdents_changeStep (si tc pc : Item) (rti : List (String × Item))
    (db db2 : DB) (r : Row)
    (h : changeStep si tc pc rti db r = .ok db2) :
    conflictIdents db2 = conflictIdents db := by
  have hred : changeStep si tc pc rti db r
      = match aGet r.identifier rti with
        | none => .ok db
        | some mi =>
          match findSnapshot db mi.id pc.id si.id with
          | none => .ok db
          | some ps =>
            match computeChanges ps.properties r.props with
            | .error e => .error e
            | .ok [] => .ok db
            | .ok (d :: ds) => .ok (changeApply si tc pc mi db (d :: ds)) := rfl
  rw [hred] at h
  cases hm : aGet r.identifier rti with
  | none =>
    rw [hm] at h
    simp only [Except.ok.injEq] at h
    subst h
    rfl
  | some mi =>
    rw [hm] at h
    dsimp only at h
    cases hsn : findSnapshot db mi.id pc.id si.id with
    | none =>
      rw [hsn] at h
      simp only [Except.ok.injEq] at h
      subst h
      rfl
    | some ps =>
      rw [hsn] at h
      dsimp only at h
      cases hc : computeChanges ps.properties r.props with
      | error e =>
        rw [hc] at h
        cases h
      | ok cs =>
        rw [hc] at h
        cases cs with
        | nil =>
          dsimp only at h
          simp only [Except.ok.injEq] at h
          subst h
          rfl
        | cons d ds =>
          dsimp only at h
          simp only [Except.ok.injEq] at h
          subst h
          exact conflictIdents_changeApply si tc pc mi db (d :: ds)

theorem conflictIdents_changeDetect (si tc pc : Item) (rti : List (String × Item)) :
    ∀ (rows : List Row) (db db2 : DB),
    changeDetect si tc pc rti db rows = .ok db2 →
    conflictIdents db2 = conflictIdents db := by
  intro rows
  induction rows with
  | nil =>
    intro db db2 h
    have h2 : (Except.ok db : Except Unit DB) = .ok db2 := h
    injection h2 with h3
    subst h3
    rfl
  | cons r t ih =>
    intro db db2 h
    have hred : changeDetect si tc pc rti db (r :: t)
        = match changeStep si tc pc rti db r with
          | .error e => .error e
          | .ok dbm => changeDetect si tc pc rti dbm t := rfl
    rw [hred] at h
    cases hs : changeStep si tc pc rti db r with
    | error e =>
      rw [hs] at h
      cases h
    | ok dbm =>
      rw [hs] at h
      dsimp only at h
      rw [ih dbm db2 h]
      exact conflictIdents_changeStep si tc pc rti db dbm r hs

theorem conflictIdents_changePhase (si tc : Item) (rti : List (String × Item))
    (db db2 : DB) (rows : List Row)
    (h : changePhase si tc rti db rows = .ok db2) :
    conflictIdents db2 = conflictIdents db := by
  unfold changePhase at h
  cases hp : findPriorContext db si.id tc with
  | none =>
    rw [hp] at h
    simp only [Except.ok.injEq] at h
    subst h
    rfl
  | some prior =>
    rw [hp] at h
    dsimp only at h
    exact conflictIdents_changeDetect si tc prior rti rows db db2 h

theorem conflictOK_conflictStepProp (si tc m : Item) (osid : ℕ)
    (osnap : Snapshot) (oident : String) (st st2 : DB × ℕ × ℕ)
    (pv : String × String)
    (h : conflictStepProp si tc m osid osnap oident st pv = .ok st2)
    (hok : (conflictIdents st.1).Nodup) : (conflictIdents st2.1).Nodup := by
  have hred : conflictStepProp si tc m osid osnap oident st pv
      = match pyGet pv.1 osnap.properties with
        | none => .ok st
        | some otherValue =>
          match values_match (some pv.2) (some otherValue.pyStr) pv.1 with
          | none => .error ()
          | some false =>
            let res := getOrCreateConflict st.1 m pv.1
            let conflictItem := res.2.1
            let snapProps : List (String × PVal) :=
              [ ("status", .str "DETECTED")
              , ("property_path", .str pv.1)
              , ("values", .dict (aSet oident (.str otherValue.pyStr)
                  [(identOrId si, .str pv.2)]))
              , ("affected_item", .str (toString m.id)) ]
            let db2 := upsertSnapshot res.1 conflictItem.id tc.id
              conflictItem.id snapProps
            let db2 := ensureConnection db2 conflictItem.id m.id []
            let db2 := ensureConnection db2 conflictItem.id si.id []
            let db2 := ensureConnection db2 conflictItem.id osid []
            let db2 := ensureConnection db2 conflictItem.id tc.id []
            .ok (db2, (if res.2.2 then st.2.1 + 1 else st.2.1), st.2.2)
          | some true =>
            match st.1.items.find? (fun it => it.item_type == "conflict" &&
                it.identifier == some (pyFStr m.identifier ++ " / " ++ pv.1)) with
            | none => .ok st
            | some existingConflict =>
              match aGet "status" existingConflict.properties with
              | none => .ok st
              | some v =>
                if PVal.beq v (.str "detected") then
                  let db2 := upsertSnapshot st.1 existingConflict.id tc.id
                    existingConflict.id
                    [ ("status", .str "RESOLVED_BY_AGREEMENT")
                    , ("property_path", .str pv.1)
                    , ("agreed_value", .str pv.2) ]
                  let db2 := setItemProps db2 existingConflict.id
                    (aUpdate existingConflict.properties
                      [("status", .str "resolved_by_agreement")])
                  .ok (db2, st.2.1, st.2.2 + 1)
                else .ok st := rfl
  rw [hred] at h
  cases hv : pyGet pv.1 osnap.properties with
  | none =>
    rw [hv] at h
    simp only [Except.ok.injEq] at h
    subst h
    exact hok
  | some ov =>
    rw [hv] at h
    dsimp only at h
    cases hvm : values_match (some pv.2) (some ov.pyStr) pv.1 with
    | none =>
      rw [hvm] at h
      cases h
    | some b =>
      cases b with
      | false =>
        rw [hvm] at h
        dsimp only at h
        simp only [Except.ok.injEq] at h
        subst h
        dsimp only
        rw [conflictIdents_ensureConnection, conflictIdents_ensureConnection,
          conflictIdents_ensureConnection, conflictIdents_ensureConnection,
          conflictIdents_upsertSnapshot]
        exact conflictOK_getOrCreateConflict st.1 m pv.1 hok
      | true =>
        rw [hvm] at h
        dsimp only at h
        cases hf : st.1.items.find? (fun it => it.item_type == "conflict" &&
            it.identifier == some (pyFStr m.identifier ++ " / " ++ pv.1)) with
        | none =>
          rw [hf] at h
          simp only [Except.ok.injEq] at h
          subst h
          exact hok
        | some ec =>
          rw [hf] at h
          dsimp only at h
          cases hst : aGet "status" ec.properties with
          | none =>
            rw [hst] at h
            simp only [Except.ok.injEq] at h
            subst h
            exact hok
          | some v =>
            rw [hst] at h
            dsimp only at h
            cases hb : PVal.beq v (.str "detected") with
            | false =>
              rw [if_neg (by simp [hb])] at h
              simp only [Except.ok.injEq] at h
              subst h
              exact hok
            | true =>
              rw [if_pos hb] at h
              simp only [Except.ok.injEq] at h
              subst h
              dsimp only
              rw [conflictIdents_setItemProps, conflictIdents_upsertSnapshot]
              exact hok

theorem conflictOK_conflictProps (si tc m : Item) (osid : ℕ) (osnap : Snapshot)
    (oident : String) :
    ∀ (pvs : List (String × String)) (st st2 : DB × ℕ × ℕ),
    conflictProps si tc m osid osnap oident st pvs = .ok st2 →
    (conflictIdents st.1).Nodup → (conflictIdents st2.1).Nodup := by
  intro pvs
  induction pvs with
  | nil =>
    intro st st2 h hok
    have h2 : (Except.ok st : Except Unit (DB × ℕ × ℕ)) = .ok st2 := h
    injection h2 with h3
    subst h3
    exact hok
  | cons pv t ih =>
    intro st st2 h hok
    have hred : conflictProps si tc m osid osnap oident st (pv :: t)
        = match conflictStepProp si tc m osid osnap oident st pv with
          | .error e => .error e
          | .ok stm => conflictProps si tc m osid osnap oident stm t := rfl
    rw [hred] at h
    cases hs : conflictStepProp si tc m osid osnap oident st pv with
    | error e =>
      rw [hs] at h
      cases h
    | ok stm =>
      rw [hs] at h
      dsimp only at h
      exact ih stm st2 h
        (conflictOK_conflictStepProp si tc m osid osnap oident st stm pv hs hok)

theorem conflictOK_conflictSources (si tc m : Item) (r : Row) :
    ∀ (os : List (ℕ × Snapshot × String)) (st st2 : DB × ℕ × ℕ),
    conflictSources si tc m r st os = .ok st2 →
    (conflictIdents st.1).Nodup → (conflictIdents st2.1).Nodup := by
  intro os
  induction os with
  | nil =>
    intro st st2 h hok
    have h2 : (Except.ok st : Except Unit (DB × ℕ × ℕ)) = .ok st2 := h
    injection h2 with h3
    subst h3
    exact hok
  | cons o t ih =>
    intro st st2 h hok
    have hred : conflictSources si tc m r st (o :: t)
        = match conflictProps si tc m o.1 o.2.1 o.2.2 st r.props with
          | .error e => .error e
          | .ok stm => conflictSources si tc m r stm t := rfl
    rw [hred] at h
    cases hs : conflictProps si tc m o.1 o.2.1 o.2.2 st r.props with
    | error e =>
      rw [hs] at h
      cases h
    | ok stm =>
      rw [hs] at h
      dsimp only at h
      exact ih stm st2 h
        (conflictOK_conflictProps si tc m o.1 o.2.1 o.2.2 r.props st stm hs hok)

theorem conflictOK_conflictRow (si tc : Item) (rti : List (String × Item))
    (co : ℤ) (st st2 : DB × ℕ × ℕ) (r : Row)
    (h : conflictRow si tc rti co st r = .ok st2)
    (hok : (conflictIdents st.1).Nodup) : (conflictIdents st2.1).Nodup := by
  unfold conflictRow at h
  cases hm : aGet r.identifier rti with
  | none =>
    rw [hm] at h
    simp only [Except.ok.injEq] at h
    subst h
    exact hok
  | some m =>
    rw [hm] at h
    dsimp only at h
    by_cases he : (getEffectiveSnapshotsFromOtherSources st.1 m.id si.id co).isEmpty = true
    · rw [if_pos he] at h
      simp only [Except.ok.injEq] at h
      subst h
      exact hok
    · rw [if_neg he] at h
      exact conflictOK_conflictSources si tc m r _ st st2 h hok

theorem conflictOK_conflictRows (si tc : Item) (rti : List (String × Item))
    (co : ℤ) :
    ∀ (rows : List Row) (st st2 : DB × ℕ × ℕ),
    conflictRows si tc rti co st rows = .ok st2 →
    (conflictIdents st.1).Nodup → (conflictIdents st2.1).Nodup := by
  intro rows
  induction rows with
  | nil =>
    intro st st2 h hok
    have h2 : (Except.ok st : Except Unit (DB × ℕ × ℕ)) = .ok st2 := h
    injection h2 with h3
    subst h3
    exact hok
  | cons r t ih =>
    intro st st2 h hok
    have hred : conflictRows si tc rti co st (r :: t)
        = match conflictRow si tc rti co st r with
          | .error e => .error e
          | .ok stm => conflictRows si tc rti co stm t := rfl
    rw [hred] at h
    cases hs : conflictRow si tc rti co st r with
    | error e =>
      rw [hs] at h
      cases h
    | ok stm =>
      rw [hs] at h
      dsimp only at h
      exact ih stm st2 h (conflictOK_conflictRow si tc rti co st stm r hs hok)

theorem conflictOK_conflictPhase (si tc : Item) (rti : List (String × Item))
    (db : DB) (rows : List Row) (st2 : DB × ℕ × ℕ)
    (h : conflictPhase si tc rti db rows = .ok st2)
    (hok : (conflictIdents db).Nodup) : (conflictIdents st2.1).Nodup :=
  conflictOK_conflictRows si tc rti (contextOrdinalOf tc) rows (db, 0, 0) st2 h hok

theorem conflictOK_run_import (db : DB) (rows : List Row) (si tc : Item)
    (ty ft : String) (cols : List String) (st : DB × ℕ × ℕ)
    (h : run_import db rows si tc ty ft cols = .ok st)
    (hok : (conflictIdents db).Nodup) : (conflictIdents st.1).Nodup := by
  unfold run_import at h
  dsimp only at h
  split at h
  · cases h
  · rename_i db2 heq2
    split at h
    · cases h
    · rename_i st3 heq3
      simp only [Except.ok.injEq] at h
      subst h
      dsimp only
      rw [conflictIdents_setItemProps]
      refine conflictOK_conflictPhase si tc _ db2 rows st3 heq3 ?_
      rw [conflictIdents_changePhase si tc _ _ db2 rows heq2,
        conflictIdents_upsertSnapshot]
      refine conflictOK_importRows si.id tc.id ty _ rows _ ?_
      rw [conflictIdents_allocItem, if_neg (by decide)]
      simpa using hok

theorem conflictOK_runImports :
    ∀ (jobs : List ImportJob) (db db2 : DB),
    runImports db jobs = .ok db2 →
    (conflictIdents db).Nodup → (conflictIdents db2).Nodup := by
  intro jobs
  induction jobs with
  | nil =>
    intro db db2 h hok
    have h2 : (Except.ok db : Except Unit DB) = .ok db2 := h
    injection h2 with h3
    subst h3
    exact hok
  | cons j t ih =>
    intro db db2 h hok
    have hred : runImports db (j :: t)
        = match run_import db j.rows j.source j.timeContext j.targetType
            j.fileType j.columnsMapped with
          | .error e => .error e
          | .ok st => runImports st.1 t := rfl
    rw [hred] at h
    cases hs : run_import db j.rows j.source j.timeContext j.targetType
        j.fileType j.columnsMapped with
    | error e =>
      rw [hs] at h
      cases h
    | ok st =>
      rw [hs] at h
      dsimp only at h
      exact ih st.1 db2 h (conflictOK_run_import db j.rows j.source j.timeContext
        j.targetType j.fileType j.columnsMapped st hs hok)

theorem filter_ident_length_le_one :
    ∀ (l : List Item),
    ((l.filter (fun it => it.item_type == "conflict")).map
      (fun it => it.identifier)).Nodup →
    ∀ x : Option String,
    (l.filter (fun it => it.item_type == "conflict" &&
      it.identifier == x)).length ≤ 1 := by
  intro l
  induction l with
  | nil =>
    intro _ x
    simp
  | cons a t ih =>
    intro hnd x
    rw [List.filter_cons] at hnd
    rw [List.filter_cons]
    cases hty : (a.item_type == "conflict") with
    | false =>
      rw [if_neg (by simp [hty])] at hnd
      rw [if_neg (by simp [hty])]
      exact ih hnd x
    | true =>
      rw [if_pos (by simp [hty])] at hnd
      rw [List.map_cons, List.nodup_cons] at hnd
      obtain ⟨hnotin, hnd2⟩ := hnd
      cases hid : (a.identifier == x) with
      | false =>
        rw [if_neg (by simp [hty, hid])]
        exact ih hnd2 x
      | true =>
        rw [if_pos (by simp [hty, hid])]
        have hxa : a.identifier = x := by simpa using hid
        have hnil : t.filter (fun it => it.item_type == "conflict" &&
            it.identifier == x) = [] := by
          rw [List.filter_eq_nil_iff]
          intro b hb hpb
          rw [Bool.and_eq_true] at hpb
          apply hnotin
          refine List.mem_map.mpr ⟨b, List.mem_filter.mpr ⟨hb, hpb.1⟩, ?_⟩
          have hbx : b.identifier = x := by simpa using hpb.2
          rw [hbx, hxa]
        rw [hnil]
        simp

/-- C3: over any sequence of import runs, conflict items are only ever
created through the get-or-create keyed on "{identifier} / {property}", so
a store whose conflict identifiers are duplicate-free keeps that property,
and afterwards at most one conflict item exists for any (affected entity,
property name) key, however many sources disagreed and however many runs
re-detected the disagreement. -/
theorem conflict_unique_per_entity_property
    (db db2 : DB) (jobs : List ImportJob)
    (h0 : (conflictIdents db).Nodup)
    (hrun : runImports db jobs = .ok db2) :
    (conflictIdents db2).Nodup ∧
    ∀ (aff : Item) (p : String),
      (db2.items.filter (fun it => it.item_type == "conflict" &&
        it.identifier == some (pyFStr aff.identifier ++ " / " ++ p))).length
        ≤ 1 := by
  have hnd := conflictOK_runImports jobs db db2 hrun h0
  exact ⟨hnd, fun aff p => filter_ident_length_le_one db2.items hnd _⟩

def dbC3 : DB :=
  { items :=
      [ ⟨1, "schedule", some "S1", []⟩
      , ⟨2, "schedule", some "S2", []⟩
      , ⟨3, "milestone", some "M", [("ordinal", .int 100)]⟩
      , ⟨4, "door", some "D1", []⟩ ]
  , snapshots := [ ⟨5, 4, 3, 1, [("finish", .str "wood")], 0⟩ ]
  , connections := []
  , nextId := 6 }

def jobC3 : ImportJob :=
  ⟨[⟨"D1", [("finish", "metal")]⟩], ⟨2, "schedule", some "S2", []⟩,
   ⟨3, "milestone", some "M", [("ordinal", .int 100)]⟩, "door", "csv", ["finish"]⟩

/-- Witness for the C3 theorem: two identical imports from a second source
disagreeing with the first both route through the get-or-create; the
(D1, finish) key holds at most one conflict item afterwards. -/
theorem conflict_unique_per_entity_property_witness :
    (conflictIdents dbC3).Nodup ∧
    ∃ db2, runImports dbC3 [jobC3, jobC3] = .ok db2 ∧
      (conflictIdents db2).Nodup ∧
      (db2.items.filter (fun it => it.item_type == "conflict" &&
        it.identifier == some (pyFStr (some "D1") ++ " / " ++ "finish"))).length
        ≤ 1 := by
  refine ⟨by decide, _, rfl, ?_, ?_⟩
  · exact (conflict_unique_per_entity_property dbC3 _ [jobC3, jobC3]
      (by decide) rfl).1
  · exact (conflict_unique_per_entity_property dbC3 _ [jobC3, jobC3]
      (by decide) rfl).2 ⟨4, "door", some "D1", []⟩ "finish"

end Cadence
